import Mathlib

/-
  Verification development for the scope-lab optics engine
  (reflecting-telescope design-space search).

  The TypeScript sources are shallowly embedded here:

  * JavaScript numbers are modelled by the type JsNum: either an exact
    rational value, NaN, Infinity or -Infinity.  Arithmetic on finite
    values is exact rational arithmetic (the IEEE-754 rounding of doubles
    is idealized away; no claim under study is about rounding), while the
    special values NaN / Infinity / -Infinity follow the IEEE-754 rules
    used by JavaScript (0/0 = NaN, 1/0 = Infinity, Infinity * 0 = NaN,
    comparisons with NaN are false, and so on).  Decimal literals of the
    source are modelled by their exact decimal values; Math.PI is the
    exact rational value of the double constant Math.PI.
  * Transcendental library functions (Math.exp, Math.sqrt) have no exact
    rational counterpart; they are passed to the embedding as explicit
    function parameters (mexp, msq) and every theorem quantifies over
    them, so nothing proved depends on their values beyond explicitly
    stated hypotheses (such as msq 1 = 1 for unit vectors).
  * The ray-tracing image-quality evaluation consumed by the design
    generators (evaluateImageQualityNewtonian, the two-mirror evaluator,
    and the rc generator's simulator context, which are not part of the
    constraint/geometry logic under study) is supplied through an oracle
    record; every sweep-level theorem quantifies over the oracle, hence
    holds for every possible image-quality outcome.
-/

/-- Model of a JavaScript number: an exact rational, NaN, or an infinity. -/
inductive JsNum where
  | fin (q : ℚ)
  | nan
  | inf
  | neginf
deriving DecidableEq, Repr, Inhabited

namespace JsNum

/-- JavaScript addition (IEEE special-value rules, exact on finite values). -/
def add : JsNum → JsNum → JsNum
  | fin a, fin b => fin (a + b)
  | nan, _ => nan
  | _, nan => nan
  | inf, neginf => nan
  | neginf, inf => nan
  | inf, _ => inf
  | _, inf => inf
  | neginf, _ => neginf
  | _, neginf => neginf

/-- JavaScript subtraction. -/
def sub : JsNum → JsNum → JsNum
  | fin a, fin b => fin (a - b)
  | nan, _ => nan
  | _, nan => nan
  | inf, inf => nan
  | neginf, neginf => nan
  | inf, _ => inf
  | _, inf => neginf
  | neginf, _ => neginf
  | _, neginf => inf

/-- JavaScript multiplication (Infinity * 0 = NaN, sign rules otherwise). -/
def mul : JsNum → JsNum → JsNum
  | fin a, fin b => fin (a * b)
  | nan, _ => nan
  | _, nan => nan
  | inf, inf => inf
  | inf, neginf => neginf
  | neginf, inf => neginf
  | neginf, neginf => inf
  | inf, fin b => if b = 0 then nan else if 0 < b then inf else neginf
  | fin a, inf => if a = 0 then nan else if 0 < a then inf else neginf
  | neginf, fin b => if b = 0 then nan else if 0 < b then neginf else inf
  | fin a, neginf => if a = 0 then nan else if 0 < a then neginf else inf

/-- JavaScript division (x/0 yields an infinity or NaN, finite/infinite = 0). -/
def div : JsNum → JsNum → JsNum
  | fin a, fin b =>
      if b = 0 then (if a = 0 then nan else if 0 < a then inf else neginf)
      else fin (a / b)
  | nan, _ => nan
  | _, nan => nan
  | inf, inf => nan
  | inf, neginf => nan
  | neginf, inf => nan
  | neginf, neginf => nan
  | inf, fin b => if 0 ≤ b then inf else neginf
  | neginf, fin b => if 0 ≤ b then neginf else inf
  | fin _, inf => fin 0
  | fin _, neginf => fin 0

/-- JavaScript unary negation. -/
def neg : JsNum → JsNum
  | fin a => fin (-a)
  | nan => nan
  | inf => neginf
  | neginf => inf

/-- Math.abs. -/
def abs : JsNum → JsNum
  | fin a => fin |a|
  | nan => nan
  | inf => inf
  | neginf => inf

/-- The strict comparison a < b (false whenever NaN is involved). -/
def lt : JsNum → JsNum → Bool
  | fin a, fin b => decide (a < b)
  | nan, _ => false
  | _, nan => false
  | neginf, neginf => false
  | neginf, _ => true
  | _, neginf => false
  | inf, _ => false
  | fin _, inf => true

/-- The comparison a <= b (false whenever NaN is involved). -/
def le : JsNum → JsNum → Bool
  | fin a, fin b => decide (a ≤ b)
  | nan, _ => false
  | _, nan => false
  | neginf, _ => true
  | _, neginf => false
  | _, inf => true
  | inf, fin _ => false

/-- Number.isFinite. -/
def isFinite : JsNum → Bool
  | fin _ => true
  | _ => false

/-- Math.max of two values (NaN-propagating, unlike the comparison operators). -/
def max2 : JsNum → JsNum → JsNum
  | nan, _ => nan
  | _, nan => nan
  | a, b => if lt a b then b else a

/-- Math.min of two values (NaN-propagating). -/
def min2 : JsNum → JsNum → JsNum
  | nan, _ => nan
  | _, nan => nan
  | a, b => if lt b a then b else a

end JsNum

open JsNum

/-- Shorthand used throughout: the rational 1e-12 of the source's tolerances. -/
def eps12 : ℚ := 1 / 1000000000000

/- ----------------------------------------------------------------
   src/optics/types.ts and src/optics/units.ts : the data model
----------------------------------------------------------------- -/

/-- Unit tag of user-facing lengths (type Units of src/optics/types.ts). -/
inductive LenUnits where
  | mm
  | inch
deriving DecidableEq, Repr, Inhabited

/-- MM_PER_INCH of src/optics/units.ts (25.4). -/
def MM_PER_INCH : ℚ := 127 / 5

/-- toMm of src/optics/units.ts. -/
def toMm (value : JsNum) (units : LenUnits) : JsNum :=
  match units with
  | .inch => mul value (fin MM_PER_INCH)
  | .mm => value

/-- fromMm of src/optics/units.ts. -/
def fromMm (value : JsNum) (units : LenUnits) : JsNum :=
  match units with
  | .inch => div value (fin MM_PER_INCH)
  | .mm => value

/-- Exact rational value of the double constant Math.PI. -/
def piQ : ℚ := 884279719003555 / 281474976710656

/-- areaCircle of src/optics/units.ts: pi * (d/2)^2. -/
def areaCircle (diameter_mm : JsNum) : JsNum :=
  mul (mul (fin piQ) (mul diameter_mm (fin (1/2)))) (mul diameter_mm (fin (1/2)))

/-- ControlMode of src/optics/types.ts. -/
inductive ControlMode where
  | design
  | sweep
deriving DecidableEq, Repr, Inhabited

/-- OpticDesignKind of src/optics/types.ts. -/
inductive OpticDesignKind where
  | newtonian
  | cassegrain
  | sct
  | rc
deriving DecidableEq, Repr, Inhabited

/-- ConstraintSpec of src/optics/types.ts. -/
structure ConstraintSpec where
  maxTubeLength : JsNum
  tubeLengthUnits : LenUnits
  maxObstructionRatio : JsNum
  minBackFocus : JsNum
  backFocusUnits : LenUnits
  fullyIlluminatedFieldRadius : JsNum
  fieldUnits : LenUnits
deriving DecidableEq, Repr, Inhabited

/-- CoatingSpec of src/optics/types.ts (optional fields). -/
structure CoatingSpec where
  reflectivityPerMirror : Option JsNum
  correctorTransmission : Option JsNum
deriving DecidableEq, Repr, Inhabited

/-- SweepSpec of src/optics/types.ts. -/
structure SweepSpec where
  primaryFRatioMin : JsNum
  primaryFRatioMax : JsNum
  primaryFRatioStep : JsNum
  systemFRatioMin : JsNum
  systemFRatioMax : JsNum
  systemFRatioStep : JsNum
deriving DecidableEq, Repr, Inhabited

/-- WeightSpec of src/optics/types.ts. -/
structure WeightSpec where
  usableLight : JsNum
  aberration : JsNum
  obstruction : JsNum
deriving DecidableEq, Repr, Inhabited

/-- One min/max pair of DerivedLimits. -/
structure LimitRange where
  minV : JsNum
  maxV : JsNum
deriving DecidableEq, Repr, Inhabited

/-- DerivedLimits of src/optics/types.ts. -/
structure DerivedLimits where
  primaryFRatio : Option LimitRange
  systemFRatio : Option LimitRange
deriving DecidableEq, Repr, Inhabited

/-- InputSpec of src/optics/types.ts. -/
structure InputSpec where
  aperture : JsNum
  apertureUnits : LenUnits
  targetSystemFRatio : JsNum
  designKinds : List OpticDesignKind
  controlMode : ControlMode
  constraints : ConstraintSpec
  coatings : CoatingSpec
  sweep : SweepSpec
  weights : WeightSpec
  derivedLimits : Option DerivedLimits
deriving DecidableEq, Repr, Inhabited

/-- GeometryMetrics of src/optics/types.ts. -/
structure GeometryMetrics where
  tubeLength_mm : JsNum
  backFocus_mm : JsNum
  secondaryDiameter_mm : JsNum
  obstructionRatio : JsNum
deriving DecidableEq, Repr, Inhabited

/-- ThroughputMetrics of src/optics/types.ts. -/
structure ThroughputMetrics where
  primaryArea_mm2 : JsNum
  effectiveArea_mm2 : JsNum
  usableLightEfficiency : JsNum
  mirrorCount : JsNum
  transmissionFactor : JsNum
deriving DecidableEq, Repr, Inhabited

/-- ImageQualityMetrics of src/optics/types.ts. -/
structure ImageQualityMetrics where
  fieldAngle_rad : JsNum
  coma_wfeRms_waves_edge : JsNum
  astig_wfeRms_waves_edge : JsNum
  fieldCurvature_wfeRms_waves_edge : JsNum
  spherical_wfeRms_waves_edge : JsNum
  wfeRms_waves_edge : JsNum
  strehl : JsNum
deriving DecidableEq, Repr, Inhabited

/-- ScoreBreakdown of src/optics/types.ts. -/
structure ScoreBreakdown where
  usableLight : JsNum
  aberration : JsNum
  obstruction : JsNum
deriving DecidableEq, Repr, Inhabited

/-- ScoreResult of src/optics/types.ts. -/
structure ScoreResult where
  total : JsNum
  terms : ScoreBreakdown
deriving DecidableEq, Repr, Inhabited

/-- ConstraintResult of src/optics/types.ts. -/
structure ConstraintResult where
  pass : Bool
  reasons : List String
deriving DecidableEq, Repr, Inhabited

/-- The inputs sub-record of Candidate of src/optics/types.ts. -/
structure CandidateInputs where
  aperture_mm : JsNum
  primaryFRatio : JsNum
  systemFRatio : JsNum
  primaryFocalLength_mm : JsNum
  systemFocalLength_mm : JsNum
deriving DecidableEq, Repr, Inhabited

/-- Candidate of src/optics/types.ts. -/
structure Candidate where
  id : String
  kind : OpticDesignKind
  inputs : CandidateInputs
  geometry : GeometryMetrics
  throughput : ThroughputMetrics
  aberrations : ImageQualityMetrics
  constraints : ConstraintResult
  score : ScoreResult
deriving DecidableEq, Repr, Inhabited

/-- DesignParams of src/optics/types.ts. -/
structure DesignParams where
  primaryFRatio : JsNum
  systemFRatio : JsNum
deriving DecidableEq, Repr, Inhabited

/- ----------------------------------------------------------------
   src/optics/constants.ts
----------------------------------------------------------------- -/

def DEFAULT_REFLECTIVITY_PER_MIRROR : ℚ := 9 / 10

def DEFAULT_CORRECTOR_TRANSMISSION : ℚ := 9 / 10

def DEFAULT_TUBE_MARGIN_MM : ℚ := 25

def NEWTONIAN_INTERCEPT_FRACTION : ℚ := 1 / 4

def OBSTRUCTION_CONTRAST_COEFFICIENT : ℚ := 3 / 20

def CASSEGRAIN_BAFFLE_FACTOR : ℚ := 53 / 50

def RC_BAFFLE_FACTOR : ℚ := 57 / 50

def SCT_BAFFLE_FACTOR : ℚ := 61 / 50

/- ----------------------------------------------------------------
   src/optics/designs/twoMirror.ts
----------------------------------------------------------------- -/

/-- TwoMirrorLayout of src/optics/designs/twoMirror.ts. -/
structure TwoMirrorLayout where
  fPrimary_mm : JsNum
  fSystem_mm : JsNum
  magnification : JsNum
  backFocus_mm : JsNum
  dPrimaryToSecondary_mm : JsNum
  secondaryDiameter_mm : JsNum
  coneRadiusAtSecondary_mm : JsNum
  chiefRayHeightAtSecondary_mm : JsNum
deriving DecidableEq, Repr, Inhabited

/-- clampNonNegativeFinite of src/optics/designs/twoMirror.ts. -/
def clampNonNegativeFinite (v : JsNum) : JsNum :=
  if v.isFinite && le (fin 0) v then v else fin 0

/-- Rational shadow of clampNonNegativeFinite, used in theorem statements:
    the rational value the clamp always produces. -/
def clampQ : JsNum → ℚ
  | fin q => if 0 ≤ q then q else 0
  | _ => 0

/-- twoMirrorLayout of src/optics/designs/twoMirror.ts: the shared
    two-mirror spacing / secondary-sizing solve. -/
def twoMirrorLayout (spec : InputSpec) (D_mm Fp Fs : JsNum) :
    Option TwoMirrorLayout :=
  if !D_mm.isFinite || le D_mm (fin 0) then none
  else if !Fp.isFinite || !Fs.isFinite then none
  else if le Fp (fin 0) || le Fs Fp then none
  else
    let fPrimary_mm := mul Fp D_mm
    let fSystem_mm := mul Fs D_mm
    let magnification := div fSystem_mm fPrimary_mm
    if !(lt (fin 1) magnification) then none
    else
      let minBackFocus_mm := clampNonNegativeFinite
        (toMm spec.constraints.minBackFocus spec.constraints.backFocusUnits)
      let backFocus_mm := minBackFocus_mm
      let d := div (sub (mul magnification fPrimary_mm) backFocus_mm)
        (add magnification (fin 1))
      if !d.isFinite || le d (fin 0) || le fPrimary_mm d then none
      else
        let fieldRadius_mm := clampNonNegativeFinite
          (toMm spec.constraints.fullyIlluminatedFieldRadius
            spec.constraints.fieldUnits)
        let coneRadiusAtSecondary_mm :=
          mul (mul (fin (1/2)) D_mm) (sub (fin 1) (div d fPrimary_mm))
        if !coneRadiusAtSecondary_mm.isFinite ||
            le coneRadiusAtSecondary_mm (fin 0) then none
        else
          let chiefRayHeightAtSecondary_mm :=
            if lt (fin 0) fieldRadius_mm then
              div (mul fieldRadius_mm (add backFocus_mm d)) fSystem_mm
            else fin 0
          let secondaryDiameter_mm :=
            mul (fin 2) (add coneRadiusAtSecondary_mm chiefRayHeightAtSecondary_mm)
          if !secondaryDiameter_mm.isFinite || le secondaryDiameter_mm (fin 0)
          then none
          else some {
            fPrimary_mm := fPrimary_mm
            fSystem_mm := fSystem_mm
            magnification := magnification
            backFocus_mm := backFocus_mm
            dPrimaryToSecondary_mm := d
            secondaryDiameter_mm := secondaryDiameter_mm
            coneRadiusAtSecondary_mm := coneRadiusAtSecondary_mm
            chiefRayHeightAtSecondary_mm := chiefRayHeightAtSecondary_mm
          }

/- ----------------------------------------------------------------
   Specification-side rational formulas for the two-mirror solve (the
   formulas of section 4.4 of the specification), used to compare the
   embedded solver against the spec text.
----------------------------------------------------------------- -/

/-- The solver's backfocus input in millimeters: the user's minimum
    backfocus converted to mm and clamped non-negative finite. -/
def specBackfocusQ (spec : InputSpec) : ℚ :=
  clampQ (toMm spec.constraints.minBackFocus spec.constraints.backFocusUnits)

/-- The fully-illuminated field radius in millimeters (clamped). -/
def specFieldRadiusQ (spec : InputSpec) : ℚ :=
  clampQ (toMm spec.constraints.fullyIlluminatedFieldRadius
    spec.constraints.fieldUnits)

/-- Spec formula: spacing d = (m * fPrimary - backfocus) / (m + 1) with
    m = Fs / Fp and fPrimary = Fp * D. -/
def spacingQ (dq fpq fsq bq : ℚ) : ℚ :=
  ((fsq / fpq) * (fpq * dq) - bq) / (fsq / fpq + 1)

/-- Spec formula: cone radius at the secondary, 0.5 * D * (1 - d / fPrimary). -/
def coneQ (dq fpq fsq bq : ℚ) : ℚ :=
  1 / 2 * dq * (1 - spacingQ dq fpq fsq bq / (fpq * dq))

/-- Spec formula: chief-ray height at the secondary for field radius rq. -/
def chiefQ (dq fpq fsq bq rq : ℚ) : ℚ :=
  if 0 < rq then rq * (bq + spacingQ dq fpq fsq bq) / (fsq * dq) else 0

/-- Spec formula: secondary diameter 2 * (coneRadius + chiefRayHeight). -/
def secondaryQ (dq fpq fsq bq rq : ℚ) : ℚ :=
  2 * (coneQ dq fpq fsq bq + chiefQ dq fpq fsq bq rq)

/- ----------------------------------------------------------------
   src/optics/plan/types.ts (ImageQualityResult) and
   src/optics/raytrace/adapt.ts
----------------------------------------------------------------- -/

/-- ImageQualityResult of src/optics/plan/types.ts (the three trailing
    fields are optional in the source). -/
structure ImageQualityResult where
  fieldAngle_rad : JsNum
  spotRms_mm : JsNum
  spotRmsU_mm : Option JsNum
  spotRmsV_mm : Option JsNum
  bestFocusShift_mm : Option JsNum
deriving DecidableEq, Repr, Inhabited

/-- finiteOr of src/optics/raytrace/adapt.ts. -/
def finiteOr (v fallback : JsNum) : JsNum :=
  if v.isFinite then v else fallback

/-- isFiniteNonNeg of src/optics/raytrace/adapt.ts. -/
def isFiniteNonNeg (v : JsNum) : Bool :=
  v.isFinite && le (fin 0) v

/-- isFinitePos of src/optics/raytrace/adapt.ts. -/
def isFinitePos (v : JsNum) : Bool :=
  v.isFinite && lt (fin 0) v

/-- The default wavelength of airyRadiusMm: 0.00055 mm (550 nm). -/
def WAVELENGTH_MM : ℚ := 11 / 20000

/-- airyRadiusMm of src/optics/raytrace/adapt.ts: 1.22 * wavelength * F
    (NaN for a non-finite or non-positive focal ratio). -/
def airyRadiusMm (F : JsNum) : JsNum :=
  if !(isFinitePos F) then nan
  else mul (mul (fin (61/50)) (fin WAVELENGTH_MM)) F

/-- Lift of an abstract Math.exp model mexp to JsNum (exp(-Infinity) = 0,
    exp(Infinity) = Infinity, exp(NaN) = NaN). -/
def jsExp (mexp : ℚ → ℚ) : JsNum → JsNum
  | fin q => fin (mexp q)
  | nan => nan
  | inf => inf
  | neginf => fin 0

/-- strehlFromBlurRatio of src/optics/raytrace/adapt.ts:
    exp(-(2 pi x)^2) for a finite non-negative blur ratio, otherwise 0.
    mexp is the abstract model of Math.exp. -/
def strehlFromBlurRatio (mexp : ℚ → ℚ) (blurOverAiry : JsNum) : JsNum :=
  if !(isFiniteNonNeg blurOverAiry) then fin 0
  else
    let x := mul (fin (2 * piQ)) blurOverAiry
    jsExp mexp (neg (mul x x))

/-- adaptRaytraceToMetrics of src/optics/raytrace/adapt.ts. -/
def adaptRaytraceToMetrics (mexp : ℚ → ℚ) (edge : ImageQualityResult)
    (systemFRatio : JsNum) (onAxis : Option ImageQualityResult) :
    ImageQualityMetrics :=
  let airy := airyRadiusMm systemFRatio
  let edge_mm := finiteOr edge.spotRms_mm nan
  let onAxis_mm := finiteOr ((onAxis.map (·.spotRms_mm)).getD nan) nan
  let tan_mm := finiteOr (edge.spotRmsU_mm.getD edge_mm) edge_mm
  let sag_mm := finiteOr (edge.spotRmsV_mm.getD edge_mm) edge_mm
  let edgeWaves :=
    if isFiniteNonNeg edge_mm && isFinitePos airy then div edge_mm airy else nan
  let onAxisWaves :=
    if isFiniteNonNeg onAxis_mm && isFinitePos airy then div onAxis_mm airy
    else nan
  let tanW :=
    if isFiniteNonNeg tan_mm && isFinitePos airy then div tan_mm airy else nan
  let sagW :=
    if isFiniteNonNeg sag_mm && isFinitePos airy then div sag_mm airy else nan
  let astig :=
    if tanW.isFinite && sagW.isFinite then abs (sub tanW sagW) else nan
  let fieldCurv := finiteOr (abs (edge.bestFocusShift_mm.getD nan)) nan
  let wfe :=
    if edgeWaves.isFinite && onAxisWaves.isFinite then max2 edgeWaves onAxisWaves
    else if edgeWaves.isFinite then edgeWaves
    else onAxisWaves
  { fieldAngle_rad := finiteOr edge.fieldAngle_rad (fin 0)
    coma_wfeRms_waves_edge := edgeWaves
    astig_wfeRms_waves_edge := astig
    fieldCurvature_wfeRms_waves_edge := fieldCurv
    spherical_wfeRms_waves_edge := onAxisWaves
    wfeRms_waves_edge := finiteOr wfe nan
    strehl := strehlFromBlurRatio mexp edgeWaves }

/- ----------------------------------------------------------------
   src/optics/score.ts
----------------------------------------------------------------- -/

/-- clamp01 of src/optics/score.ts (non-finite values clamp to 0). -/
def clamp01 : JsNum → JsNum
  | fin q => if q ≤ 0 then fin 0 else if 1 ≤ q then fin 1 else fin q
  | _ => fin 0

/-- The bounds record produced by computeScoreBounds of src/optics/score.ts. -/
structure ScoreBounds where
  minWfeRms : JsNum
  maxWfeRms : JsNum
  wfeScale : JsNum
deriving DecidableEq, Repr, Inhabited

/-- scoreCandidate of src/optics/score.ts: returns a copy of the candidate
    with the score populated from the three weighted terms. -/
def scoreCandidate (candidate : Candidate) (bounds : ScoreBounds)
    (weights : WeightSpec) : Candidate :=
  let usableLightTerm := clamp01 candidate.throughput.usableLightEfficiency
  let w := finiteOr candidate.aberrations.wfeRms_waves_edge nan
  let minW := finiteOr bounds.minWfeRms (fin 0)
  let maxW := finiteOr bounds.maxWfeRms (add minW (fin 1))
  let denom := max2 (fin eps12) (sub maxW minW)
  let normBad := if w.isFinite then clamp01 (div (sub w minW) denom) else fin 1
  let aberrationTerm := clamp01 (sub (fin 1) normBad)
  let o := clamp01 candidate.geometry.obstructionRatio
  let obstructionPenalty :=
    add o (mul (mul (fin OBSTRUCTION_CONTRAST_COEFFICIENT) o) o)
  let obstructionTerm := clamp01 (sub (fin 1) obstructionPenalty)
  let terms : ScoreBreakdown := {
    usableLight := usableLightTerm
    aberration := aberrationTerm
    obstruction := obstructionTerm }
  let total :=
    add (add (mul weights.usableLight terms.usableLight)
      (mul weights.aberration terms.aberration))
      (mul weights.obstruction terms.obstruction)
  { candidate with score := { total := total, terms := terms } }

/-- The reducer inside computeScoreBounds of src/optics/score.ts: fold a
    candidate's wfeRms_waves_edge into the running (min, max) accumulator,
    skipping non-finite values. -/
def boundsStep (acc : JsNum × JsNum) (c : Candidate) : JsNum × JsNum :=
  let w := c.aberrations.wfeRms_waves_edge
  if !w.isFinite then acc
  else
    let lo := if lt w acc.1 then w else acc.1
    let hi := if lt acc.2 w then w else acc.2
    (lo, hi)

/-- computeScoreBounds of src/optics/score.ts: min/max of the finite
    wfeRms_waves_edge values, with min defaulting to 0 and max forced
    above min by 1 when absent or degenerate. -/
def computeScoreBounds (candidates : List Candidate) : ScoreBounds :=
  let pair := candidates.foldl boundsStep (inf, neginf)
  let minW := if !pair.1.isFinite then fin 0 else pair.1
  let maxW := if !pair.2.isFinite || le pair.2 minW then add minW (fin 1)
    else pair.2
  { minWfeRms := minW, maxWfeRms := maxW, wfeScale := fin 1 }

/- ----------------------------------------------------------------
   Numeric rendering used only inside id / reason strings.
   JavaScript's toFixed is modelled as exact decimal rounding (ties away
   from the smaller value); the precise text of these strings carries no
   logic in the claims under study.
----------------------------------------------------------------- -/

/-- Decimal rendering of a rational already scaled to an integer count of
    hundredths, used for the toFixed(2) pattern of candidate ids. -/
def renderHundredths (n : ℤ) : String :=
  let sign := if n < 0 then "-" else ""
  let m := n.natAbs
  let ip := m / 100
  let fp := m % 100
  let fpStr := if fp < 10 then "0" ++ toString fp else toString fp
  sign ++ toString ip ++ "." ++ fpStr

/-- Model of x.toFixed(2) for JsNum. -/
def jsToFixed2 : JsNum → String
  | fin q => renderHundredths (round (q * 100))
  | nan => "NaN"
  | inf => "Infinity"
  | neginf => "-Infinity"

/-- Model of x.toFixed(0) for JsNum. -/
def jsToFixed0 : JsNum → String
  | fin q => toString (round q)
  | nan => "NaN"
  | inf => "Infinity"
  | neginf => "-Infinity"

/- ----------------------------------------------------------------
   src/optics/designs : newtonian.ts, cassegrain.ts, sct.ts, rc.ts

   The ray-traced image-quality inputs of the generators are supplied
   by a RayOracle: iqNewt models evaluateImageQualityNewtonian
   (src/optics/raytrace/imageQualityNewtonian.ts), iqCass models
   evaluateImageQualityTwoMirror (the two-mirror evaluator imported by
   cassegrain.ts, whose module is not present in this snapshot), and
   rcSim models the simulate call made by the rc generator through its
   simulator context.  mexp models Math.exp inside the metrics adapter.
   All sweep-level theorems quantify over the oracle, so they hold for
   every possible image-quality outcome.
----------------------------------------------------------------- -/

/-- Oracle bundling the abstract ray-trace components of the generators. -/
structure RayOracle where
  mexp : ℚ → ℚ
  iqNewt : InputSpec → DesignParams → ImageQualityResult
  iqCass : InputSpec → DesignParams → ImageQualityResult
  rcSim : InputSpec → DesignParams → List ImageQualityResult

/-- JavaScript's "x || default" for an optional number: the default is used
    when the field is absent, 0 or NaN (the falsy numbers). -/
def orFalsy (v : Option JsNum) (dflt : JsNum) : JsNum :=
  match v with
  | none => dflt
  | some x => if x = fin 0 || x = nan then dflt else x

/-- Math.pow(x, 2), as used with mirrorCount = 2. -/
def powTwo (x : JsNum) : JsNum := mul x x

/-- The newtonian generator of src/optics/designs/newtonian.ts. -/
def newtonianGen (o : RayOracle) (spec : InputSpec) (params : DesignParams) :
    Option Candidate :=
  let D_mm := toMm spec.aperture spec.apertureUnits
  let Fp := params.primaryFRatio
  if !D_mm.isFinite || le D_mm (fin 0) then none
  else if !Fp.isFinite || le Fp (fin 0) then none
  else
    let fPrimary_mm := mul Fp D_mm
    let tubeLength_mm := add fPrimary_mm (fin DEFAULT_TUBE_MARGIN_MM)
    let maxTube_mm := toMm spec.constraints.maxTubeLength
      spec.constraints.tubeLengthUnits
    let intercept_mm := mul (fin NEWTONIAN_INTERCEPT_FRACTION) fPrimary_mm
    let fieldRadius_mm := clampNonNegativeFinite
      (toMm spec.constraints.fullyIlluminatedFieldRadius
        spec.constraints.fieldUnits)
    let secondaryDiameter_mm :=
      add (div (mul D_mm intercept_mm) fPrimary_mm)
        (div (mul (mul (fin 2) fieldRadius_mm) (sub fPrimary_mm intercept_mm))
          fPrimary_mm)
    let obstructionRatio := div secondaryDiameter_mm D_mm
    let primaryArea_mm2 := areaCircle D_mm
    let obstructionArea_mm2 := areaCircle secondaryDiameter_mm
    let transmissionFactor := powTwo
      (orFalsy spec.coatings.reflectivityPerMirror
        (fin DEFAULT_REFLECTIVITY_PER_MIRROR))
    let effectiveArea_mm2 :=
      mul (sub primaryArea_mm2 obstructionArea_mm2) transmissionFactor
    let usableLightEfficiency := div effectiveArea_mm2 primaryArea_mm2
    let backFocus_mm := max2 (fin 0) (sub fPrimary_mm intercept_mm)
    let reasons0 : List String := []
    let reasons1 :=
      if maxTube_mm.isFinite && lt maxTube_mm tubeLength_mm then
        reasons0 ++ ["Tube length requires >= " ++ jsToFixed0 tubeLength_mm ++
          "mm (current max " ++ jsToFixed0 maxTube_mm ++ "mm)"]
      else reasons0
    let reasons2 :=
      if spec.constraints.maxObstructionRatio.isFinite &&
          lt spec.constraints.maxObstructionRatio obstructionRatio then
        reasons1 ++ ["Obstruction requires <= " ++
          jsToFixed2 spec.constraints.maxObstructionRatio ++ " (current " ++
          jsToFixed2 obstructionRatio ++ ")"]
      else reasons1
    let minBackFocus_mm := toMm spec.constraints.minBackFocus
      spec.constraints.backFocusUnits
    let reasons3 :=
      if minBackFocus_mm.isFinite && lt (fin 0) minBackFocus_mm &&
          lt backFocus_mm minBackFocus_mm then
        reasons2 ++ ["Backfocus requires >= " ++ jsToFixed0 minBackFocus_mm ++
          "mm (current " ++ jsToFixed0 backFocus_mm ++ "mm)"]
      else reasons2
    let iq := o.iqNewt spec params
    let aberrations := adaptRaytraceToMetrics o.mexp iq Fp none
    some {
      id := "newtonian-F" ++ jsToFixed2 Fp
      kind := .newtonian
      inputs := {
        aperture_mm := D_mm
        primaryFRatio := Fp
        systemFRatio := Fp
        primaryFocalLength_mm := fPrimary_mm
        systemFocalLength_mm := fPrimary_mm }
      geometry := {
        tubeLength_mm := tubeLength_mm
        backFocus_mm := backFocus_mm
        secondaryDiameter_mm := secondaryDiameter_mm
        obstructionRatio := obstructionRatio }
      throughput := {
        primaryArea_mm2 := primaryArea_mm2
        effectiveArea_mm2 := effectiveArea_mm2
        usableLightEfficiency := usableLightEfficiency
        mirrorCount := fin 2
        transmissionFactor := transmissionFactor }
      aberrations := aberrations
      constraints := { pass := reasons3.isEmpty, reasons := reasons3 }
      score := {
        total := fin 0
        terms := {
          usableLight := fin 0
          aberration := fin 0
          obstruction := fin 0 } } }

/-- The cassegrain generator of src/optics/designs/cassegrain.ts (the
    backfocus console diagnostic is a pure side effect and is omitted). -/
def cassegrainGen (o : RayOracle) (spec : InputSpec) (params : DesignParams) :
    Option Candidate :=
  let D_mm := toMm spec.aperture spec.apertureUnits
  let Fp := params.primaryFRatio
  let Fs := params.systemFRatio
  if !D_mm.isFinite || le D_mm (fin 0) then none
  else if !Fp.isFinite || le Fp (fin 0) then none
  else if !Fs.isFinite || le Fs (fin 0) then none
  else if le Fs Fp then none
  else
    match twoMirrorLayout spec D_mm Fp Fs with
    | none => none
    | some layout =>
      let tubeLength_mm :=
        add (add (mul layout.fPrimary_mm
          (sub (fin 1) (div (fin 1) layout.magnification)))
          layout.backFocus_mm) (fin DEFAULT_TUBE_MARGIN_MM)
      let maxTube_mm := toMm spec.constraints.maxTubeLength
        spec.constraints.tubeLengthUnits
      let secondaryDiameter_mm := layout.secondaryDiameter_mm
      let obstructionDiameter_mm :=
        mul secondaryDiameter_mm (fin CASSEGRAIN_BAFFLE_FACTOR)
      let obstructionRatio := div obstructionDiameter_mm D_mm
      let reasons0 : List String := []
      let reasons1 :=
        if maxTube_mm.isFinite && lt maxTube_mm tubeLength_mm then
          reasons0 ++ ["Tube length " ++ jsToFixed0 tubeLength_mm ++
            "mm exceeds max " ++ jsToFixed0 maxTube_mm ++ "mm"]
        else reasons0
      let reasons2 :=
        if spec.constraints.maxObstructionRatio.isFinite &&
            lt spec.constraints.maxObstructionRatio obstructionRatio then
          reasons1 ++ ["Obstruction " ++ jsToFixed2 obstructionRatio ++
            " exceeds max " ++ jsToFixed2 spec.constraints.maxObstructionRatio]
        else reasons1
      let minBackFocus_mm := toMm spec.constraints.minBackFocus
        spec.constraints.backFocusUnits
      let reasons3 :=
        if minBackFocus_mm.isFinite && lt (fin 0) minBackFocus_mm &&
            lt layout.backFocus_mm minBackFocus_mm then
          reasons2 ++ ["Backfocus requires >= " ++ jsToFixed0 minBackFocus_mm ++
            "mm (current " ++ jsToFixed0 layout.backFocus_mm ++ "mm)"]
        else reasons2
      let primaryArea_mm2 := areaCircle D_mm
      let obstructionArea_mm2 := areaCircle obstructionDiameter_mm
      let transmissionFactor := powTwo
        (orFalsy spec.coatings.reflectivityPerMirror
          (fin DEFAULT_REFLECTIVITY_PER_MIRROR))
      let effectiveArea_mm2 :=
        mul (sub primaryArea_mm2 obstructionArea_mm2) transmissionFactor
      let usableLightEfficiency := div effectiveArea_mm2 primaryArea_mm2
      let iq := o.iqCass spec params
      let aberrations := adaptRaytraceToMetrics o.mexp iq Fs none
      some {
        id := "cass-Fp" ++ jsToFixed2 Fp ++ "-Fs" ++ jsToFixed2 Fs
        kind := .cassegrain
        inputs := {
          aperture_mm := D_mm
          primaryFRatio := Fp
          systemFRatio := Fs
          primaryFocalLength_mm := layout.fPrimary_mm
          systemFocalLength_mm := layout.fSystem_mm }
        geometry := {
          tubeLength_mm := tubeLength_mm
          backFocus_mm := layout.backFocus_mm
          secondaryDiameter_mm := obstructionDiameter_mm
          obstructionRatio := obstructionRatio }
        throughput := {
          primaryArea_mm2 := primaryArea_mm2
          effectiveArea_mm2 := effectiveArea_mm2
          usableLightEfficiency := usableLightEfficiency
          mirrorCount := fin 2
          transmissionFactor := transmissionFactor }
        aberrations := aberrations
        constraints := { pass := reasons3.isEmpty, reasons := reasons3 }
        score := {
          total := fin 0
          terms := {
            usableLight := fin 0
            aberration := fin 0
            obstruction := fin 0 } } }

/-- All-NaN metrics record: the sct generator stores a legacy object with
    a single proxyScore field, so every field declared by the current
    ImageQualityMetrics type reads as undefined there, which the scoring
    and constraint code observes as a non-finite number. -/
def legacyProxyMetrics : ImageQualityMetrics :=
  { fieldAngle_rad := nan
    coma_wfeRms_waves_edge := nan
    astig_wfeRms_waves_edge := nan
    fieldCurvature_wfeRms_waves_edge := nan
    spherical_wfeRms_waves_edge := nan
    wfeRms_waves_edge := nan
    strehl := nan }

/-- The sct generator (src/optics/designs/sct.ts, the twoMirrorLayout-based
    revision matching the baffle-factor constants). -/
def sctGen (spec : InputSpec) (params : DesignParams) : Option Candidate :=
  let D_mm := toMm spec.aperture spec.apertureUnits
  let Fp := params.primaryFRatio
  let Fs := params.systemFRatio
  match twoMirrorLayout spec D_mm Fp Fs with
  | none => none
  | some layout =>
    let tubeLength_mm :=
      add (add (mul layout.fPrimary_mm
        (sub (fin 1) (div (fin 1) layout.magnification)))
        layout.backFocus_mm) (fin DEFAULT_TUBE_MARGIN_MM)
    let secondaryDiameter_mm := layout.secondaryDiameter_mm
    let obstructionDiameter_mm :=
      mul secondaryDiameter_mm (fin SCT_BAFFLE_FACTOR)
    let obstructionRatio := div obstructionDiameter_mm D_mm
    let primaryArea_mm2 := areaCircle D_mm
    let obstructionArea_mm2 := areaCircle obstructionDiameter_mm
    let reflectivity := orFalsy spec.coatings.reflectivityPerMirror
      (fin DEFAULT_REFLECTIVITY_PER_MIRROR)
    let correctorTransmission := orFalsy spec.coatings.correctorTransmission
      (fin DEFAULT_CORRECTOR_TRANSMISSION)
    let transmissionFactor := mul (powTwo reflectivity) correctorTransmission
    let effectiveArea_mm2 :=
      mul (sub primaryArea_mm2 obstructionArea_mm2) transmissionFactor
    let usableLightEfficiency := div effectiveArea_mm2 primaryArea_mm2
    some {
      id := "sct-Fp" ++ jsToFixed2 Fp ++ "-Fs" ++ jsToFixed2 Fs
      kind := .sct
      inputs := {
        aperture_mm := D_mm
        primaryFRatio := Fp
        systemFRatio := Fs
        primaryFocalLength_mm := layout.fPrimary_mm
        systemFocalLength_mm := layout.fSystem_mm }
      geometry := {
        tubeLength_mm := tubeLength_mm
        backFocus_mm := layout.backFocus_mm
        secondaryDiameter_mm := obstructionDiameter_mm
        obstructionRatio := obstructionRatio }
      throughput := {
        primaryArea_mm2 := primaryArea_mm2
        effectiveArea_mm2 := effectiveArea_mm2
        usableLightEfficiency := usableLightEfficiency
        mirrorCount := fin 2
        transmissionFactor := transmissionFactor }
      aberrations := legacyProxyMetrics
      constraints := { pass := true, reasons := [] }
      score := {
        total := fin 0
        terms := {
          usableLight := fin 0
          aberration := fin 0
          obstruction := fin 0 } } }

/-- The rc generator of src/optics/designs/rc.ts.  The source receives a
    simulator context as a third argument and calls
    ctx.simulator.simulate on the assembled plan; that call is modelled
    by the oracle's rcSim list (empty list = no image-quality results,
    which makes the generator return null). -/
def rcGen (o : RayOracle) (spec : InputSpec) (params : DesignParams) :
    Option Candidate :=
  let D_mm := toMm spec.aperture spec.apertureUnits
  let Fp := params.primaryFRatio
  let Fs := params.systemFRatio
  if !(lt (fin 0) D_mm && lt (fin 0) Fp && lt Fp Fs) then none
  else
    match twoMirrorLayout spec D_mm Fp Fs with
    | none => none
    | some layout =>
      let tubeLength_mm :=
        add (add (mul layout.fPrimary_mm
          (sub (fin 1) (div (fin 1) layout.magnification)))
          layout.backFocus_mm) (fin DEFAULT_TUBE_MARGIN_MM)
      let secondaryDiameter_mm := layout.secondaryDiameter_mm
      let obstructionDiameter_mm :=
        mul secondaryDiameter_mm (fin RC_BAFFLE_FACTOR)
      let obstructionRatio := div obstructionDiameter_mm D_mm
      let maxTube_mm := toMm spec.constraints.maxTubeLength
        spec.constraints.tubeLengthUnits
      let reasons0 : List String := []
      let reasons1 :=
        if maxTube_mm.isFinite && lt maxTube_mm tubeLength_mm then
          reasons0 ++ ["Tube too long"]
        else reasons0
      let reasons2 :=
        if spec.constraints.maxObstructionRatio.isFinite &&
            lt spec.constraints.maxObstructionRatio obstructionRatio then
          reasons1 ++ ["Obstruction too large"]
        else reasons1
      let reflectivity :=
        (spec.coatings.reflectivityPerMirror).getD
          (fin DEFAULT_REFLECTIVITY_PER_MIRROR)
      match o.rcSim spec params with
      | [] => none
      | iqHead :: iqTail =>
        let aberrations := adaptRaytraceToMetrics o.mexp
          (iqTail.getLastD iqHead) Fs (some iqHead)
        let primaryArea_mm2 := areaCircle D_mm
        let obstructionArea_mm2 := areaCircle obstructionDiameter_mm
        let effectiveArea_mm2 :=
          mul (sub primaryArea_mm2 obstructionArea_mm2) (powTwo reflectivity)
        some {
          id := "rc-Fp" ++ jsToFixed2 Fp ++ "-Fs" ++ jsToFixed2 Fs
          kind := .rc
          inputs := {
            aperture_mm := D_mm
            primaryFRatio := Fp
            systemFRatio := Fs
            primaryFocalLength_mm := layout.fPrimary_mm
            systemFocalLength_mm := layout.fSystem_mm }
          geometry := {
            tubeLength_mm := tubeLength_mm
            backFocus_mm := layout.backFocus_mm
            secondaryDiameter_mm := obstructionDiameter_mm
            obstructionRatio := obstructionRatio }
          throughput := {
            primaryArea_mm2 := primaryArea_mm2
            effectiveArea_mm2 := effectiveArea_mm2
            usableLightEfficiency := div effectiveArea_mm2 primaryArea_mm2
            mirrorCount := fin 2
            transmissionFactor := powTwo reflectivity }
          aberrations := aberrations
          constraints := { pass := reasons2.isEmpty, reasons := reasons2 }
          score := {
            total := fin 0
            terms := {
              usableLight := fin 0
              aberration := fin 0
              obstruction := fin 0 } } }

/- ----------------------------------------------------------------
   src/optics/sweep.ts
----------------------------------------------------------------- -/

/-- checkConstraints of src/optics/sweep.ts: the centralized constraint
    check; replaces only the constraints field of the candidate. -/
def checkConstraints (spec : InputSpec) (c : Candidate) : Candidate :=
  let maxTube_mm := toMm spec.constraints.maxTubeLength
    spec.constraints.tubeLengthUnits
  let minBackFocus_mm := toMm spec.constraints.minBackFocus
    spec.constraints.backFocusUnits
  let reasons0 : List String := []
  let reasons1 :=
    if lt maxTube_mm c.geometry.tubeLength_mm then
      reasons0 ++ ["tube_length_exceeds_max"]
    else reasons0
  let reasons2 :=
    if lt spec.constraints.maxObstructionRatio c.geometry.obstructionRatio then
      reasons1 ++ ["obstruction_exceeds_max"]
    else reasons1
  let reasons3 :=
    if lt c.geometry.backFocus_mm minBackFocus_mm then
      reasons2 ++ ["backfocus_below_min"]
    else reasons2
  { c with constraints := { pass := reasons3.isEmpty, reasons := reasons3 } }

/-- Number(v.toFixed(10)): exact rounding to ten decimal places
    (NaN and the infinities round-trip to themselves). -/
def roundTo10 : JsNum → JsNum
  | fin q => fin ((round (q * 10000000000) : ℚ) / 10000000000)
  | nan => nan
  | inf => inf
  | neginf => neginf

/-- The all-finite while loop of enumerateRange of src/optics/sweep.ts:
    push Number(v.toFixed(10)) while v <= max + 1e-12, stepping by step. -/
def enumLoopFin (mx st : ℚ) (hst : 0 < st) (v : ℚ) : List JsNum :=
  if _h : v ≤ mx + eps12 then
    roundTo10 (fin v) :: enumLoopFin mx st hst (v + st)
  else []
termination_by (((mx + eps12 - v) / st).floor + 1).toNat
decreasing_by
  have hnum : (0:ℚ) ≤ mx + eps12 - v := by linarith
  have hx : (0:ℚ) ≤ (mx + eps12 - v) / st := div_nonneg hnum (le_of_lt hst)
  have h1 : (mx + eps12 - (v + st)) / st = (mx + eps12 - v) / st - 1 := by
    field_simp
    ring
  have h2 : ((mx + eps12 - v) / st - 1).floor =
      ((mx + eps12 - v) / st).floor - 1 := by
    exact_mod_cast Int.floor_sub_int ((mx + eps12 - v) / st) 1
  have h0 : (0:ℤ) ≤ ((mx + eps12 - v) / st).floor := Int.floor_nonneg.mpr hx
  rw [h1, h2]
  omega

/-- The loop of enumerateRange on inputs having a non-finite component:
    in every terminating case the source loop runs at most one iteration;
    the cases where both loop tests stay true (for example min = -Infinity
    with a finite positive step) make the source loop forever, and this
    model returns the empty list for exactly those inputs. -/
def enumOneStep (mn mx st : JsNum) : List JsNum :=
  if le mn (add mx (fin eps12)) then
    match add mn st with
    | nan => [roundTo10 mn]
    | v1 => if le v1 (add mx (fin eps12)) then [] else [roundTo10 mn]
  else []

/-- enumerateRange of src/optics/sweep.ts. -/
def enumerateRange (mn mx st : JsNum) : List JsNum :=
  if le st (fin 0) then []
  else if lt mx mn then []
  else
    match mn, mx, st with
    | fin mnq, fin mxq, fin stq =>
      if hst : 0 < stq then enumLoopFin mxq stq hst mnq else []
    | a, b, c => enumOneStep a b c

/-- relaxedSpecForInference of src/optics/sweep.ts: huge max tube length,
    max obstruction 1, zero min backfocus. -/
def relaxedSpecForInference (spec : InputSpec) : InputSpec :=
  { spec with constraints := { spec.constraints with
      maxTubeLength := fin 1000000000
      maxObstructionRatio := fin 1
      minBackFocus := fin 0 } }

/-- generatorFor of src/optics/sweep.ts combined with the generator call. -/
def runGenerator (o : RayOracle) (kind : OpticDesignKind) (spec : InputSpec)
    (params : DesignParams) : Option Candidate :=
  match kind with
  | .newtonian => newtonianGen o spec params
  | .cassegrain => cassegrainGen o spec params
  | .sct => sctGen spec params
  | .rc => rcGen o spec params

/-- The primary f-ratio grid of a sweep spec. -/
def fpValuesOf (spec : InputSpec) : List JsNum :=
  enumerateRange spec.sweep.primaryFRatioMin spec.sweep.primaryFRatioMax
    spec.sweep.primaryFRatioStep

/-- The system f-ratio grid of a sweep spec, falling back to the single
    target system f-ratio when the configured range is empty. -/
def fsValuesOf (spec : InputSpec) : List JsNum :=
  let rawFsValues := enumerateRange spec.sweep.systemFRatioMin
    spec.sweep.systemFRatioMax spec.sweep.systemFRatioStep
  let fsFallback :=
    if lt (fin 0) spec.targetSystemFRatio then [spec.targetSystemFRatio] else []
  if rawFsValues.isEmpty then fsFallback else rawFsValues

/-- One design kind's share of collectRawCandidates of src/optics/sweep.ts. -/
def kindRawCandidates (o : RayOracle) (spec : InputSpec)
    (fpValues fsValues : List JsNum) (kind : OpticDesignKind) : List Candidate :=
  match kind with
  | .newtonian => fpValues.filterMap (fun Fp =>
      runGenerator o .newtonian spec { primaryFRatio := Fp, systemFRatio := Fp })
  | k => fpValues.flatMap (fun Fp => fsValues.filterMap (fun Fs =>
      runGenerator o k spec { primaryFRatio := Fp, systemFRatio := Fs }))

/-- collectRawCandidates of src/optics/sweep.ts. -/
def collectRawCandidates (o : RayOracle) (spec : InputSpec) : List Candidate :=
  spec.designKinds.flatMap
    (kindRawCandidates o spec (fpValuesOf spec) (fsValuesOf spec))

/-- The warnings of inferConstraintAdjustments, modelled as structured
    values carrying the numeric content of the formatted strings. -/
inductive SweepWarning where
  | maxTubeIncreased (v : JsNum) (units : LenUnits)
  | maxObstructionIncreased (v : JsNum)
  | minBackFocusReduced (v : JsNum) (units : LenUnits)
deriving DecidableEq, Repr

/-- Result record of inferConstraintAdjustments. -/
structure AdjustResult where
  spec : InputSpec
  warnings : List SweepWarning
deriving DecidableEq, Repr

/-- inferConstraintAdjustments of src/optics/sweep.ts. -/
def inferConstraintAdjustments (o : RayOracle) (spec : InputSpec) :
    AdjustResult :=
  let relaxed := relaxedSpecForInference spec
  let raw := collectRawCandidates o relaxed
  if raw.isEmpty then { spec := spec, warnings := [] }
  else
    let minTube_mm := raw.foldl (fun acc c =>
      if c.geometry.tubeLength_mm.isFinite then min2 acc c.geometry.tubeLength_mm
      else acc) inf
    let minObs := raw.foldl (fun acc c =>
      if c.geometry.obstructionRatio.isFinite then
        min2 acc c.geometry.obstructionRatio
      else acc) inf
    let maxBackFocus_mm := raw.foldl (fun acc c =>
      if c.geometry.backFocus_mm.isFinite then max2 acc c.geometry.backFocus_mm
      else acc) neginf
    if !minTube_mm.isFinite || !minObs.isFinite || !maxBackFocus_mm.isFinite then
      { spec := spec, warnings := [] }
    else
      let curMaxTube_mm := toMm spec.constraints.maxTubeLength
        spec.constraints.tubeLengthUnits
      let cond1 := lt curMaxTube_mm minTube_mm
      let v1 := fromMm minTube_mm spec.constraints.tubeLengthUnits
      let next1 := if cond1 then
          { spec with constraints := { spec.constraints with
              maxTubeLength := v1 } }
        else spec
      let w1 : List SweepWarning := if cond1 then
          [.maxTubeIncreased v1 spec.constraints.tubeLengthUnits] else []
      let cond2 := lt spec.constraints.maxObstructionRatio minObs
      let next2 := if cond2 then
          { next1 with constraints := { next1.constraints with
              maxObstructionRatio := minObs } }
        else next1
      let w2 : List SweepWarning := if cond2 then
          [.maxObstructionIncreased minObs] else []
      let curMinBackFocus_mm := toMm spec.constraints.minBackFocus
        spec.constraints.backFocusUnits
      let cond3 := lt maxBackFocus_mm curMinBackFocus_mm
      let v3 := fromMm maxBackFocus_mm spec.constraints.backFocusUnits
      let next3 := if cond3 then
          { next2 with constraints := { next2.constraints with
              minBackFocus := v3 } }
        else next2
      let w3 : List SweepWarning := if cond3 then
          [.minBackFocusReduced v3 spec.constraints.backFocusUnits] else []
      { spec := next3, warnings := w1 ++ w2 ++ w3 }

/-- Accumulator of inferDerivedLimits. -/
structure FourLimits where
  minFp : JsNum
  maxFp : JsNum
  minFs : JsNum
  maxFs : JsNum
deriving DecidableEq, Repr

/-- One accepted trial of inferDerivedLimits updates the four running
    limits through Math.min / Math.max. -/
def limitsStep (acc : FourLimits) (Fp Fs : JsNum) (pass : Bool) : FourLimits :=
  if pass then
    { minFp := min2 acc.minFp Fp
      maxFp := max2 acc.maxFp Fp
      minFs := min2 acc.minFs Fs
      maxFs := max2 acc.maxFs Fs }
  else acc

/-- Whether a (kind, Fp, Fs) trial generated under the relaxed spec passes
    the real constraint check (the accept test of inferDerivedLimits). -/
def passTrial (o : RayOracle) (spec relaxed : InputSpec)
    (kind : OpticDesignKind) (Fp Fs : JsNum) : Bool :=
  match runGenerator o kind relaxed { primaryFRatio := Fp, systemFRatio := Fs }
  with
  | none => false
  | some raw => (checkConstraints spec raw).constraints.pass

/-- inferDerivedLimits of src/optics/sweep.ts. -/
def inferDerivedLimits (o : RayOracle) (spec : InputSpec) : InputSpec :=
  let fpValues := fpValuesOf spec
  let fsValues := fsValuesOf spec
  let relaxed := relaxedSpecForInference spec
  let acc := spec.designKinds.foldl (fun acc kind =>
    match kind with
    | .newtonian => fpValues.foldl (fun a Fp =>
        limitsStep a Fp Fp (passTrial o spec relaxed .newtonian Fp Fp)) acc
    | k => fpValues.foldl (fun a Fp => fsValues.foldl (fun a2 Fs =>
        limitsStep a2 Fp Fs (passTrial o spec relaxed k Fp Fs)) a) acc)
    { minFp := inf, maxFp := neginf, minFs := inf, maxFs := neginf }
  if !acc.minFp.isFinite || !acc.maxFp.isFinite || !acc.minFs.isFinite ||
      !acc.maxFs.isFinite then
    { spec with derivedLimits := none }
  else
    { spec with derivedLimits := some {
        primaryFRatio := some { minV := acc.minFp, maxV := acc.maxFp }
        systemFRatio := some { minV := acc.minFs, maxV := acc.maxFs } } }

/-- One design kind's share of the candidate loop of runSweep: generators
    run under the relaxed spec, the real spec drives checkConstraints. -/
def sweepKindCandidates (o : RayOracle) (spec relaxed : InputSpec)
    (fpValues fsValues : List JsNum) (kind : OpticDesignKind) :
    List Candidate :=
  match kind with
  | .newtonian => fpValues.filterMap (fun Fp =>
      (runGenerator o .newtonian relaxed
        { primaryFRatio := Fp, systemFRatio := Fp }).map (checkConstraints spec))
  | k => fpValues.flatMap (fun Fp => fsValues.filterMap (fun Fs =>
      (runGenerator o k relaxed
        { primaryFRatio := Fp, systemFRatio := Fs }).map (checkConstraints spec)))

/-- The full candidate list assembled by runSweep of src/optics/sweep.ts. -/
def sweepCandidates (o : RayOracle) (spec : InputSpec) : List Candidate :=
  spec.designKinds.flatMap
    (sweepKindCandidates o spec (relaxedSpecForInference spec)
      (fpValuesOf spec) (fsValuesOf spec))

/-- Stable insertion of a candidate into a list already sorted by
    descending score.total: the candidate moves past an element only when
    its total is strictly smaller, so ties (and NaN comparisons, which the
    ECMAScript sort comparator coerces to zero) keep enumeration order. -/
def rankedInsert (x : Candidate) : List Candidate → List Candidate
  | [] => [x]
  | y :: ys =>
    if lt x.score.total y.score.total then y :: rankedInsert x ys
    else x :: y :: ys

/-- The scored.sort((a, b) => b.score.total - a.score.total) call of
    runSweep: a stable sort by descending total, agreeing with
    Array.prototype.sort whenever the comparator is consistent. -/
def sortByTotalDesc (l : List Candidate) : List Candidate :=
  l.foldr rankedInsert []

/-- The bestByKind record of runSweep (one optional winner per kind). -/
structure BestByKind where
  newtonian : Option Candidate
  cassegrain : Option Candidate
  sct : Option Candidate
  rc : Option Candidate
deriving DecidableEq, Repr

/-- The all-null initial bestByKind record. -/
def emptyBestByKind : BestByKind :=
  { newtonian := none, cassegrain := none, sct := none, rc := none }

/-- The first-seen-wins update of bestByKind while walking the sorted list. -/
def bestByKindInsert (b : BestByKind) (c : Candidate) : BestByKind :=
  match c.kind with
  | .newtonian => if b.newtonian.isNone then { b with newtonian := some c } else b
  | .cassegrain =>
    if b.cassegrain.isNone then { b with cassegrain := some c } else b
  | .sct => if b.sct.isNone then { b with sct := some c } else b
  | .rc => if b.rc.isNone then { b with rc := some c } else b

/-- SweepResult of src/optics/sweep.ts (derivedSpec and warnings are
    populated on every return path of runSweep). -/
structure SweepResult where
  candidates : List Candidate
  ranked : List Candidate
  bestOverall : Option Candidate
  bestByKind : BestByKind
  top : List Candidate
  derivedSpec : InputSpec
  warnings : List SweepWarning
deriving DecidableEq, Repr

/-- runSweep of src/optics/sweep.ts (topN is modelled as a natural number;
    the source clamps it below by 0 before slicing). -/
def runSweep (o : RayOracle) (spec : InputSpec) (topN : ℕ := 25) : SweepResult :=
  let candidates := sweepCandidates o spec
  let passing := candidates.filter (fun c => c.constraints.pass)
  let adj := inferConstraintAdjustments o spec
  let derivedSpec := inferDerivedLimits o adj.spec
  let warnings := adj.warnings
  if passing.isEmpty then
    { candidates := candidates
      ranked := []
      bestOverall := none
      bestByKind := emptyBestByKind
      top := []
      derivedSpec := derivedSpec
      warnings := warnings }
  else
    let bounds := computeScoreBounds passing
    let scored := sortByTotalDesc
      (passing.map (fun c => scoreCandidate c bounds spec.weights))
    let bbk := scored.foldl bestByKindInsert emptyBestByKind
    { candidates := candidates
      ranked := scored
      bestOverall := scored.head?
      bestByKind := bbk
      top := scored.take topN
      derivedSpec := derivedSpec
      warnings := warnings }

/- ----------------------------------------------------------------
   src/optics/raytrace/math.ts and trace.ts (plane intersection)
----------------------------------------------------------------- -/

/-- Vec3 of src/optics/raytrace/types.ts. -/
structure Vec3 where
  x : JsNum
  y : JsNum
  z : JsNum
deriving DecidableEq, Repr, Inhabited

namespace Vec3

/-- Componentwise vector addition (add of math.ts). -/
def addV (a b : Vec3) : Vec3 :=
  ⟨JsNum.add a.x b.x, JsNum.add a.y b.y, JsNum.add a.z b.z⟩

/-- Componentwise vector subtraction (sub of math.ts). -/
def subV (a b : Vec3) : Vec3 :=
  ⟨JsNum.sub a.x b.x, JsNum.sub a.y b.y, JsNum.sub a.z b.z⟩

/-- Scalar multiplication (mul of math.ts). -/
def mulS (a : Vec3) (s : JsNum) : Vec3 :=
  ⟨JsNum.mul a.x s, JsNum.mul a.y s, JsNum.mul a.z s⟩

/-- Dot product (dot of math.ts). -/
def dotV (a b : Vec3) : JsNum :=
  JsNum.add (JsNum.add (JsNum.mul a.x b.x) (JsNum.mul a.y b.y))
    (JsNum.mul a.z b.z)

end Vec3

/-- Lift of an abstract Math.sqrt model msq to JsNum (negative arguments
    and -Infinity give NaN, Infinity gives Infinity). -/
def jsSqrt (msq : ℚ → ℚ) : JsNum → JsNum
  | fin q => if q < 0 then nan else fin (msq q)
  | nan => nan
  | inf => inf
  | neginf => nan

/-- norm of src/optics/raytrace/math.ts. -/
def vnorm (msq : ℚ → ℚ) (a : Vec3) : JsNum :=
  jsSqrt msq (Vec3.dotV a a)

/-- normalize of src/optics/raytrace/math.ts: the zero vector whenever the
    norm is not a positive finite number. -/
def normalizeV (msq : ℚ → ℚ) (a : Vec3) : Vec3 :=
  let n := vnorm msq a
  if !(lt (fin 0) n) || !n.isFinite then ⟨fin 0, fin 0, fin 0⟩
  else ⟨div a.x n, div a.y n, div a.z n⟩

/-- Ray of src/optics/raytrace/types.ts. -/
structure Ray where
  o : Vec3
  d : Vec3
deriving DecidableEq, Repr, Inhabited

/-- PlaneSurface as the simulator's runtime conversion builds it: the
    optional inner aperture radius is attached by toPlaneSurface of
    src/optics/raytrace/simulator.ts but is never read by the trace.ts
    intersection code. -/
structure PlaneSurface where
  p0 : Vec3
  nHat : Vec3
  apertureRadius : JsNum
  innerApertureRadius : Option JsNum
deriving DecidableEq, Repr, Inhabited

/-- A ray-surface hit (t plus the hit point). -/
structure Hit where
  t : JsNum
  p : Vec3
deriving DecidableEq, Repr, Inhabited

/-- withinAperturePlane of src/optics/raytrace/trace.ts: the squared
    in-plane distance of p from p0 (total squared distance minus the
    squared projection onto the unit normal) must not exceed the squared
    aperture radius plus the 1e-12 tolerance. -/
def withinAperturePlane (msq : ℚ → ℚ) (surface : PlaneSurface) (p : Vec3) :
    Bool :=
  let dx := JsNum.sub p.x surface.p0.x
  let dy := JsNum.sub p.y surface.p0.y
  let dz := JsNum.sub p.z surface.p0.z
  let dd := JsNum.add (JsNum.add (JsNum.mul dx dx) (JsNum.mul dy dy))
    (JsNum.mul dz dz)
  let proj := Vec3.dotV ⟨dx, dy, dz⟩ (normalizeV msq surface.nHat)
  let r2 := max2 (fin 0) (JsNum.sub dd (JsNum.mul proj proj))
  le r2 (JsNum.add (JsNum.mul surface.apertureRadius surface.apertureRadius)
    (fin eps12))

/-- intersectPlane of src/optics/raytrace/trace.ts. -/
def intersectPlane (msq : ℚ → ℚ) (surface : PlaneSurface) (rayIn : Ray) :
    Option Hit :=
  let rd := normalizeV msq rayIn.d
  let n := normalizeV msq surface.nHat
  let denom := Vec3.dotV n rd
  if !denom.isFinite || lt (abs denom) (fin eps12) then none
  else
    let t := div (Vec3.dotV n (Vec3.subV surface.p0 rayIn.o)) denom
    if !t.isFinite || lt t (fin 0) then none
    else
      let p := Vec3.addV rayIn.o (Vec3.mulS rd t)
      if !(withinAperturePlane msq surface p) then none
      else some { t := t, p := p }

/- ----------------------------------------------------------------
   src/optics/raytrace/simulator.ts : best-focus search
----------------------------------------------------------------- -/

/-- The rms / rmsA / rmsB triple of rmsAtPlane. -/
structure RmsTriple where
  rms : JsNum
  rmsA : JsNum
  rmsB : JsNum
deriving DecidableEq, Repr, Inhabited

/-- The all-NaN triple returned for degenerate planes. -/
def nanRms : RmsTriple := { rms := nan, rmsA := nan, rmsB := nan }

/-- The statistics core of rmsAtPlane of src/optics/raytrace/simulator.ts,
    over the list of sensor hits projected into the plane's 2D basis (the
    per-ray tracing that produces the hits is supplied by the caller):
    with fewer than 3 hits every component is NaN, otherwise the rms is
    the square root of the centroid-referenced mean square radius. -/
def rmsAtPlaneHits (msq : ℚ → ℚ) (hits : List (JsNum × JsNum)) : RmsTriple :=
  if hits.length < 3 then nanRms
  else
    let len : JsNum := fin (hits.length : ℚ)
    let sa := hits.foldl (fun s h => add s h.1) (fin 0)
    let sb := hits.foldl (fun s h => add s h.2) (fin 0)
    let ca := div sa len
    let cb := div sb len
    let va := hits.foldl (fun s h => add s (mul (sub h.1 ca) (sub h.1 ca)))
      (fin 0)
    let vb := hits.foldl (fun s h => add s (mul (sub h.2 cb) (sub h.2 cb)))
      (fin 0)
    { rms := jsSqrt msq (div (add va vb) len)
      rmsA := jsSqrt msq (div va len)
      rmsB := jsSqrt msq (div vb len) }

/-- shiftPlane of src/optics/raytrace/simulator.ts: translate the plane's
    point along its unit normal. -/
def shiftPlane (msq : ℚ → ℚ) (surface : PlaneSurface) (shift : JsNum) :
    PlaneSurface :=
  { surface with
    p0 := Vec3.addV surface.p0 (Vec3.mulS (normalizeV msq surface.nHat) shift) }

/-- The focus-search step size of bestFocusForField:
    max(0.5, |z0| * 1e-4) with z0 the sensor's position along its normal. -/
def focusStepSize (msq : ℚ → ℚ) (sensor0 : PlaneSurface) : JsNum :=
  let n := normalizeV msq sensor0.nHat
  let z0 := Vec3.dotV sensor0.p0 n
  max2 (fin (1/2)) (mul (abs z0) (fin (1/10000)))

/-- One iteration of the focus-search loop: skip a non-finite rms, adopt a
    strictly smaller finite rms (or any finite rms when none is held). -/
def focusSearchStep (rmsAt : JsNum → RmsTriple) (step : JsNum)
    (acc : JsNum × RmsTriple) (i : ℤ) : JsNum × RmsTriple :=
  let shift := mul (fin (i : ℚ)) step
  let r := rmsAt shift
  if !r.rms.isFinite then acc
  else if !acc.2.rms.isFinite || lt r.rms acc.2.rms then (shift, r)
  else acc

/-- The focus-search window: the nine integers from -4 to 4. -/
def focusIndices : List ℤ := [-4, -3, -2, -1, 0, 1, 2, 3, 4]

/-- Result record of bestFocusForField. -/
structure FocusResult where
  bestShift_mm : JsNum
  bestPlane : PlaneSurface
  bestRms : RmsTriple
deriving DecidableEq, Repr, Inhabited

/-- bestFocusForField of src/optics/raytrace/simulator.ts.  rmsAt shift
    stands for rmsAtPlane evaluated at the sensor plane shifted by that
    amount (its hit statistics are rmsAtPlaneHits over the traced bundle);
    the search itself is the source's loop over i * step for i in [-4, 4]. -/
def bestFocusForField (msq : ℚ → ℚ) (sensor0 : PlaneSurface)
    (rmsAt : JsNum → RmsTriple) : FocusResult :=
  let step := focusStepSize msq sensor0
  let res := focusIndices.foldl (focusSearchStep rmsAt step) (fin 0, nanRms)
  { bestShift_mm := res.1
    bestPlane := shiftPlane msq sensor0 res.1
    bestRms := res.2 }

/-- The per-field ImageQualityResult pushed by simulate of
    src/optics/raytrace/simulator.ts from a focus-search result. -/
def iqResultOfFocus (fieldAngle_rad : JsNum) (best : FocusResult) :
    ImageQualityResult :=
  { fieldAngle_rad := fieldAngle_rad
    spotRms_mm := best.bestRms.rms
    spotRmsU_mm := some best.bestRms.rmsA
    spotRmsV_mm := some best.bestRms.rmsB
    bestFocusShift_mm := some best.bestShift_mm }

/- ----------------------------------------------------------------
   Concrete instances used by witnesses and counterexamples.
----------------------------------------------------------------- -/

/-- An all-zero raw image-quality result. -/
def zeroIq : ImageQualityResult :=
  { fieldAngle_rad := fin 0
    spotRms_mm := fin 0
    spotRmsU_mm := none
    spotRmsV_mm := none
    bestFocusShift_mm := none }

/-- A concrete oracle instance (identity exponential model, all-zero spot
    statistics, no rc simulation results). -/
def trivialOracle : RayOracle :=
  { mexp := fun q => q
    iqNewt := fun _ _ => zeroIq
    iqCass := fun _ _ => zeroIq
    rcSim := fun _ _ => [] }

/-- A concrete sweep spec: 200 mm aperture, cassegrain only, primary
    f-ratio fixed at 4, system f-ratio fixed at 8, minimum backfocus
    100 mm, loose tube and obstruction limits. -/
def specBase : InputSpec :=
  { aperture := fin 200
    apertureUnits := .mm
    targetSystemFRatio := fin 8
    designKinds := [.cassegrain]
    controlMode := .sweep
    constraints := {
      maxTubeLength := fin 1000000
      tubeLengthUnits := .mm
      maxObstructionRatio := fin 1
      minBackFocus := fin 100
      backFocusUnits := .mm
      fullyIlluminatedFieldRadius := fin 0
      fieldUnits := .mm }
    coatings := {
      reflectivityPerMirror := some (fin (9/10))
      correctorTransmission := none }
    sweep := {
      primaryFRatioMin := fin 4
      primaryFRatioMax := fin 4
      primaryFRatioStep := fin 1
      systemFRatioMin := fin 8
      systemFRatioMax := fin 8
      systemFRatioStep := fin 1 }
    weights := {
      usableLight := fin 1
      aberration := fin 1
      obstruction := fin 1 }
    derivedLimits := none }

/-- specBase with an empty primary f-ratio range (max below min). -/
def specEmpty : InputSpec :=
  { specBase with sweep := { specBase.sweep with
      primaryFRatioMin := fin 5
      primaryFRatioMax := fin 4 } }

/-- specBase with a zero minimum backfocus, so its cassegrain candidate
    passes the central constraint check. -/
def specPass : InputSpec :=
  { specBase with constraints := { specBase.constraints with
      minBackFocus := fin 0 } }

/-- specPass with a NaN usable-light weight and a two-point system
    f-ratio grid (8 and 10). -/
def specNanWeight : InputSpec :=
  { specPass with
    weights := { specPass.weights with usableLight := nan }
    sweep := { specPass.sweep with
      systemFRatioMin := fin 8
      systemFRatioMax := fin 10
      systemFRatioStep := fin 2 } }

/-- Rational shadow of the scalar clamp of clamp01, used in statements. -/
def clamp01Q (x : ℚ) : ℚ :=
  if x ≤ 0 then 0 else if 1 ≤ x then 1 else x

/-- The claim's ranking invariant: every adjacent pair of the list
    satisfies score.total of the earlier at least score.total of the
    later (under the JavaScript comparison). -/
def rankedSortedDesc (l : List Candidate) : Prop :=
  l.Chain' (fun a b => le b.score.total a.score.total = true)

/-- A test-fixture candidate carrying a prescribed combined wavefront
    error; every other metric is benign. -/
def mkCandW (w : JsNum) : Candidate :=
  { id := "fixture"
    kind := .newtonian
    inputs := {
      aperture_mm := fin 200
      primaryFRatio := fin 4
      systemFRatio := fin 4
      primaryFocalLength_mm := fin 800
      systemFocalLength_mm := fin 800 }
    geometry := {
      tubeLength_mm := fin 825
      backFocus_mm := fin 600
      secondaryDiameter_mm := fin 50
      obstructionRatio := fin (1/4) }
    throughput := {
      primaryArea_mm2 := fin 31415
      effectiveArea_mm2 := fin 23561
      usableLightEfficiency := fin (3/4)
      mirrorCount := fin 2
      transmissionFactor := fin (81/100) }
    aberrations := {
      fieldAngle_rad := fin 0
      coma_wfeRms_waves_edge := w
      astig_wfeRms_waves_edge := fin 0
      fieldCurvature_wfeRms_waves_edge := fin 0
      spherical_wfeRms_waves_edge := fin 0
      wfeRms_waves_edge := w
      strehl := fin 1 }
    constraints := { pass := true, reasons := [] }
    score := {
      total := fin 0
      terms := {
        usableLight := fin 0
        aberration := fin 0
        obstruction := fin 0 } } }

/-- Weight triple used by fixtures. -/
def wBase : WeightSpec :=
  { usableLight := fin 1, aberration := fin 1, obstruction := fin 1 }

/-- An annular sensor plane at the origin, facing +z: outer aperture
    radius 1 mm, inner (central-hole) radius 0.5 mm. -/
def planeX : PlaneSurface :=
  { p0 := ⟨fin 0, fin 0, fin 0⟩
    nHat := ⟨fin 0, fin 0, fin 1⟩
    apertureRadius := fin 1
    innerApertureRadius := some (fin (1/2)) }

/-- The same plane without an inner radius. -/
def planeW : PlaneSurface :=
  { planeX with innerApertureRadius := none }

/-- An axial ray one millimetre before the plane, travelling along +z. -/
def rayX : Ray :=
  { o := ⟨fin 0, fin 0, fin (-1)⟩, d := ⟨fin 0, fin 0, fin 1⟩ }

/-- The hit that rayX produces on the sensor planes above. -/
def hitW : Hit :=
  { t := fin 1, p := ⟨fin 0, fin 0, fin 0⟩ }

/-- A concrete per-shift RMS function: finite statistics at the nominal
    plane, degenerate (NaN) statistics at every shifted plane. -/
def rmsAtX : JsNum → RmsTriple :=
  fun shift =>
    if shift = fin 0 then { rms := fin 1, rmsA := fin 1, rmsB := fin 1 }
    else nanRms

/- ================================================================
   Theorems.  First a few evaluation lemmas for the number model.
================================================================ -/

theorem jsnum_smoke :
    add (fin 2) (fin (1/2)) = fin (5/2) ∧
    mul inf (fin 0) = nan ∧
    div (fin 1) (fin 0) = inf ∧
    div (fin 0) (fin 0) = nan ∧
    lt nan (fin 3) = false ∧
    le neginf (fin 3) = true ∧
    max2 nan (fin 1) = nan ∧
    sub inf inf = nan := by
  refine ⟨?_, ?_, ?_, ?_, ?_, ?_, ?_, ?_⟩ <;> norm_num [add, mul, div, lt, le, max2, sub]

@[simp] theorem isFinite_fin (q : ℚ) : (fin q).isFinite = true := rfl

@[simp] theorem isFinite_nan : (nan).isFinite = false := rfl

@[simp] theorem isFinite_inf : (inf).isFinite = false := rfl

@[simp] theorem isFinite_neginf : (neginf).isFinite = false := rfl

@[simp] theorem add_fin_fin (a b : ℚ) : add (fin a) (fin b) = fin (a + b) := rfl

@[simp] theorem sub_fin_fin (a b : ℚ) : sub (fin a) (fin b) = fin (a - b) := rfl

@[simp] theorem mul_fin_fin (a b : ℚ) : mul (fin a) (fin b) = fin (a * b) := rfl

@[simp] theorem neg_fin (a : ℚ) : neg (fin a) = fin (-a) := rfl

@[simp] theorem abs_fin (a : ℚ) : abs (fin a) = fin |a| := rfl

theorem div_fin_fin {b : ℚ} (a : ℚ) (hb : b ≠ 0) :
    div (fin a) (fin b) = fin (a / b) := by
  simp [div, hb]

theorem le_fin_iff {a b : ℚ} : le (fin a) (fin b) = true ↔ a ≤ b := by
  simp [le]

theorem lt_fin_iff {a b : ℚ} : lt (fin a) (fin b) = true ↔ a < b := by
  simp [lt]

theorem le_fin_fin (a b : ℚ) : le (fin a) (fin b) = decide (a ≤ b) := rfl

theorem lt_fin_fin (a b : ℚ) : lt (fin a) (fin b) = decide (a < b) := rfl

theorem isFinite_iff {v : JsNum} : v.isFinite = true ↔ ∃ q, v = fin q := by
  cases v <;> simp [isFinite]

/-- The value held by a finite JsNum. -/
theorem exists_fin_of_isFinite {v : JsNum} (h : v.isFinite = true) :
    ∃ q, v = fin q := isFinite_iff.mp h

/- ----------------------------------------------------------------
   Structural lemmas about the sweep pipeline.
----------------------------------------------------------------- -/

/-- checkConstraints computes its pass flag as the emptiness of the very
    reasons list it stores. -/
theorem checkConstraints_pass_iff (spec : InputSpec) (c : Candidate) :
    ((checkConstraints spec c).constraints.pass = true ↔
      (checkConstraints spec c).constraints.reasons = []) := by
  simp [checkConstraints, List.isEmpty_iff]

@[simp] theorem checkConstraints_kind (spec : InputSpec) (c : Candidate) :
    (checkConstraints spec c).kind = c.kind := rfl

@[simp] theorem checkConstraints_geometry (spec : InputSpec) (c : Candidate) :
    (checkConstraints spec c).geometry = c.geometry := rfl

/-- scoreCandidate rewrites only the score field. -/
theorem scoreCandidate_constraints (c : Candidate) (b : ScoreBounds)
    (w : WeightSpec) : (scoreCandidate c b w).constraints = c.constraints := rfl

/-- Membership in a stable ranked insertion. -/
theorem mem_rankedInsert {a x : Candidate} {l : List Candidate} :
    a ∈ rankedInsert x l ↔ a = x ∨ a ∈ l := by
  induction l with
  | nil => simp [rankedInsert]
  | cons y ys ih =>
    simp only [rankedInsert]
    split
    · simp only [List.mem_cons, ih]
      tauto
    · simp only [List.mem_cons]

/-- Sorting by descending total neither adds nor removes candidates. -/
theorem mem_sortByTotalDesc {a : Candidate} {l : List Candidate} :
    a ∈ sortByTotalDesc l ↔ a ∈ l := by
  induction l with
  | nil => simp [sortByTotalDesc]
  | cons y ys ih =>
    simp only [sortByTotalDesc, List.foldr_cons] at *
    rw [mem_rankedInsert, ih]
    simp

/-- Every candidate of the runSweep candidate loop is the image of some
    generator output under checkConstraints with the original spec. -/
theorem mem_sweepCandidates {o : RayOracle} {spec : InputSpec} {c : Candidate}
    (h : c ∈ sweepCandidates o spec) :
    ∃ kind params raw,
      runGenerator o kind (relaxedSpecForInference spec) params = some raw ∧
      c = checkConstraints spec raw := by
  unfold sweepCandidates at h
  rw [List.mem_flatMap] at h
  obtain ⟨kind, -, hk⟩ := h
  cases kind <;>
    simp only [sweepKindCandidates, List.mem_filterMap, List.mem_flatMap] at hk
  case newtonian =>
    obtain ⟨Fp, -, hgen⟩ := hk
    rw [Option.map_eq_some'] at hgen
    obtain ⟨raw, hraw, hc⟩ := hgen
    exact ⟨.newtonian, _, raw, hraw, hc.symm⟩
  case cassegrain =>
    obtain ⟨Fp, -, Fs, -, hgen⟩ := hk
    rw [Option.map_eq_some'] at hgen
    obtain ⟨raw, hraw, hc⟩ := hgen
    exact ⟨.cassegrain, _, raw, hraw, hc.symm⟩
  case sct =>
    obtain ⟨Fp, -, Fs, -, hgen⟩ := hk
    rw [Option.map_eq_some'] at hgen
    obtain ⟨raw, hraw, hc⟩ := hgen
    exact ⟨.sct, _, raw, hraw, hc.symm⟩
  case rc =>
    obtain ⟨Fp, -, Fs, -, hgen⟩ := hk
    rw [Option.map_eq_some'] at hgen
    obtain ⟨raw, hraw, hc⟩ := hgen
    exact ⟨.rc, _, raw, hraw, hc.symm⟩

/-- The candidates field of runSweep is the candidate loop's list in both
    the empty-passing and the scored branch. -/
theorem runSweep_candidates (o : RayOracle) (spec : InputSpec) (topN : ℕ) :
    (runSweep o spec topN).candidates = sweepCandidates o spec := by
  unfold runSweep
  dsimp only
  split <;> rfl

/-- The ranked field of runSweep: empty when no candidate passes, otherwise
    the stable descending sort of the scored passing candidates. -/
theorem runSweep_ranked (o : RayOracle) (spec : InputSpec) (topN : ℕ) :
    (runSweep o spec topN).ranked =
      (if ((sweepCandidates o spec).filter (fun c => c.constraints.pass)).isEmpty
      then ([] : List Candidate)
      else sortByTotalDesc
        (((sweepCandidates o spec).filter (fun c => c.constraints.pass)).map
          (fun c => scoreCandidate c
            (computeScoreBounds
              ((sweepCandidates o spec).filter (fun c => c.constraints.pass)))
            spec.weights))) := by
  unfold runSweep
  dsimp only
  split <;> rfl

/-- Claim C9 helper: every member of the candidates or ranked list of a
    sweep result has its constraints produced by checkConstraints. -/
theorem runSweep_mem_constraints {o : RayOracle} {spec : InputSpec} {topN : ℕ}
    {c : Candidate}
    (h : c ∈ (runSweep o spec topN).candidates ∨
      c ∈ (runSweep o spec topN).ranked) :
    ∃ spec' raw, c.constraints = (checkConstraints spec' raw).constraints := by
  rcases h with h | h
  · rw [runSweep_candidates] at h
    obtain ⟨kind, params, raw, -, hc⟩ := mem_sweepCandidates h
    exact ⟨spec, raw, by rw [hc]⟩
  · rw [runSweep_ranked] at h
    split at h
    · simp at h
    · rw [mem_sortByTotalDesc, List.mem_map] at h
      obtain ⟨c', hc', hsc⟩ := h
      rw [List.mem_filter] at hc'
      obtain ⟨kind, params, raw, -, hraw⟩ := mem_sweepCandidates hc'.1
      refine ⟨spec, raw, ?_⟩
      rw [← hsc, scoreCandidate_constraints, hraw]

/-- C9: for every candidate produced by runSweep (each has gone through the
    central constraint check), the pass flag is true exactly when the
    reasons list is empty. -/
theorem runSweep_pass_iff_no_reasons (o : RayOracle) (spec : InputSpec)
    (topN : ℕ) (c : Candidate)
    (h : c ∈ (runSweep o spec topN).candidates ∨
      c ∈ (runSweep o spec topN).ranked) :
    (c.constraints.pass = true ↔ c.constraints.reasons = []) := by
  obtain ⟨spec', raw, hc⟩ := runSweep_mem_constraints h
  rw [hc]
  exact checkConstraints_pass_iff spec' raw

/-- C10: checkConstraints replaces only the constraints field; every other
    field of the candidate is returned unchanged. -/
theorem checkConstraints_frame (spec : InputSpec) (c : Candidate) :
    (checkConstraints spec c).id = c.id ∧
    (checkConstraints spec c).kind = c.kind ∧
    (checkConstraints spec c).inputs = c.inputs ∧
    (checkConstraints spec c).geometry = c.geometry ∧
    (checkConstraints spec c).throughput = c.throughput ∧
    (checkConstraints spec c).aberrations = c.aberrations ∧
    (checkConstraints spec c).score = c.score :=
  ⟨rfl, rfl, rfl, rfl, rfl, rfl, rfl⟩

/- ----------------------------------------------------------------
   Evaluation lemmas for comparisons and the clamp.
----------------------------------------------------------------- -/

theorem le_fin_eq_true {a b : ℚ} (h : a ≤ b) : le (fin a) (fin b) = true := by
  simp only [JsNum.le]
  exact decide_eq_true h

theorem le_fin_eq_false {a b : ℚ} (h : b < a) : le (fin a) (fin b) = false := by
  simp only [JsNum.le]
  exact decide_eq_false (not_le.mpr h)

theorem lt_fin_eq_true {a b : ℚ} (h : a < b) : lt (fin a) (fin b) = true := by
  simp only [JsNum.lt]
  exact decide_eq_true h

theorem lt_fin_eq_false {a b : ℚ} (h : b ≤ a) : lt (fin a) (fin b) = false := by
  simp only [JsNum.lt]
  exact decide_eq_false (not_lt.mpr h)

theorem clampNonNegativeFinite_eq (v : JsNum) :
    clampNonNegativeFinite v = fin (clampQ v) := by
  cases v with
  | fin q =>
    by_cases h : 0 ≤ q
    · simp [clampNonNegativeFinite, clampQ, JsNum.le, JsNum.isFinite, h]
    · simp [clampNonNegativeFinite, clampQ, JsNum.le, JsNum.isFinite, h]
  | nan => rfl
  | inf => rfl
  | neginf => rfl

theorem clampQ_nonneg (v : JsNum) : 0 ≤ clampQ v := by
  cases v with
  | fin q =>
    by_cases h : 0 ≤ q
    · simp [clampQ, h]
    · simp [clampQ, h]
  | nan => exact le_refl 0
  | inf => exact le_refl 0
  | neginf => exact le_refl 0

/-- The chief-ray height formula is non-negative whenever the solver's
    inputs are in their valid region. -/
theorem chiefQ_nonneg {dq fpq fsq bq rq : ℚ} (hb : 0 ≤ bq)
    (hdd : 0 < spacingQ dq fpq fsq bq) (hfs : 0 < fsq * dq) :
    0 ≤ chiefQ dq fpq fsq bq rq := by
  unfold chiefQ
  split_ifs with h
  · positivity
  · exact le_refl 0

/- ----------------------------------------------------------------
   Master evaluation of the two-mirror solver on finite inputs with a
   positive aperture: it returns none exactly on the spec's invalidity
   conditions, and otherwise the record of the spec formulas.
----------------------------------------------------------------- -/

theorem twoMirrorLayout_eval (spec : InputSpec) (dq fpq fsq : ℚ)
    (hD : 0 < dq) :
    twoMirrorLayout spec (fin dq) (fin fpq) (fin fsq) =
      (if fsq ≤ fpq ∨
          ¬(0 < spacingQ dq fpq fsq (specBackfocusQ spec) ∧
            spacingQ dq fpq fsq (specBackfocusQ spec) < fpq * dq) ∨
          secondaryQ dq fpq fsq (specBackfocusQ spec) (specFieldRadiusQ spec) ≤ 0
      then none
      else some {
        fPrimary_mm := fin (fpq * dq)
        fSystem_mm := fin (fsq * dq)
        magnification := fin (fsq / fpq)
        backFocus_mm := fin (specBackfocusQ spec)
        dPrimaryToSecondary_mm :=
          fin (spacingQ dq fpq fsq (specBackfocusQ spec))
        secondaryDiameter_mm :=
          fin (secondaryQ dq fpq fsq (specBackfocusQ spec)
            (specFieldRadiusQ spec))
        coneRadiusAtSecondary_mm :=
          fin (coneQ dq fpq fsq (specBackfocusQ spec))
        chiefRayHeightAtSecondary_mm :=
          fin (chiefQ dq fpq fsq (specBackfocusQ spec)
            (specFieldRadiusQ spec)) }) := by
  have hbq0 : 0 ≤ specBackfocusQ spec := clampQ_nonneg _
  have hrq0 : 0 ≤ specFieldRadiusQ spec := clampQ_nonneg _
  unfold twoMirrorLayout
  dsimp only
  rw [if_neg (by simp [le_fin_eq_false hD])]
  rw [if_neg (by simp)]
  by_cases h1 : fsq ≤ fpq
  · rw [if_pos (by simp [le_fin_eq_true h1]), if_pos (Or.inl h1)]
  · have hfs : fpq < fsq := not_le.mp h1
    by_cases h2 : fpq ≤ 0
    · rw [if_pos (by simp [le_fin_eq_true h2])]
      have hint : ¬(0 < spacingQ dq fpq fsq (specBackfocusQ spec) ∧
          spacingQ dq fpq fsq (specBackfocusQ spec) < fpq * dq) := by
        rintro ⟨hd1, hd2⟩
        have hf : fpq * dq ≤ 0 := by nlinarith
        linarith
      rw [if_pos (Or.inr (Or.inl hint))]
    · have hfp : 0 < fpq := not_le.mp h2
      rw [if_neg (by simp [le_fin_eq_false hfp, le_fin_eq_false hfs])]
      have hfpos : 0 < fpq * dq := mul_pos hfp hD
      have hfne : fpq * dq ≠ 0 := ne_of_gt hfpos
      have hm : div (mul (fin fsq) (fin dq)) (mul (fin fpq) (fin dq)) =
          fin (fsq / fpq) := by
        rw [mul_fin_fin, mul_fin_fin, div_fin_fin _ hfne,
          mul_div_mul_right _ _ (ne_of_gt hD)]
      rw [hm]
      have hm1 : (1:ℚ) < fsq / fpq := (one_lt_div hfp).mpr hfs
      rw [if_neg (by simp [lt_fin_eq_true hm1])]
      rw [clampNonNegativeFinite_eq]
      have hb : clampQ (toMm spec.constraints.minBackFocus
          spec.constraints.backFocusUnits) = specBackfocusQ spec := rfl
      rw [hb]
      simp only [mul_fin_fin, sub_fin_fin, add_fin_fin]
      have hm1pos : (0:ℚ) < fsq / fpq + 1 := by linarith
      rw [div_fin_fin _ (ne_of_gt hm1pos)]
      have hdval : (fsq / fpq * (fpq * dq) - specBackfocusQ spec) /
          (fsq / fpq + 1) = spacingQ dq fpq fsq (specBackfocusQ spec) := rfl
      rw [hdval]
      by_cases h3 : 0 < spacingQ dq fpq fsq (specBackfocusQ spec) ∧
          spacingQ dq fpq fsq (specBackfocusQ spec) < fpq * dq
      · rw [if_neg (by
          simp [le_fin_eq_false h3.1, le_fin_eq_false h3.2])]
        rw [clampNonNegativeFinite_eq]
        have hr : clampQ (toMm spec.constraints.fullyIlluminatedFieldRadius
            spec.constraints.fieldUnits) = specFieldRadiusQ spec := rfl
        rw [hr]
        rw [div_fin_fin _ hfne]
        simp only [mul_fin_fin, sub_fin_fin, add_fin_fin]
        have hcone : 1 / 2 * dq *
            (1 - spacingQ dq fpq fsq (specBackfocusQ spec) / (fpq * dq)) =
            coneQ dq fpq fsq (specBackfocusQ spec) := rfl
        rw [hcone]
        have hconepos : 0 < coneQ dq fpq fsq (specBackfocusQ spec) := by
          have hlt1 : spacingQ dq fpq fsq (specBackfocusQ spec) / (fpq * dq)
              < 1 := (div_lt_one hfpos).mpr h3.2
          unfold coneQ
          have hgap : 0 < 1 - spacingQ dq fpq fsq (specBackfocusQ spec) /
              (fpq * dq) := by linarith
          nlinarith [mul_pos hD hgap]
        rw [if_neg (by simp [le_fin_eq_false hconepos])]
        have hfsys : (0:ℚ) < fsq * dq := mul_pos (lt_trans hfp hfs) hD
        have hchief : (if lt (fin 0) (fin (specFieldRadiusQ spec)) = true
            then div (fin (specFieldRadiusQ spec *
              (specBackfocusQ spec + spacingQ dq fpq fsq (specBackfocusQ spec))))
              (fin (fsq * dq))
            else fin 0) =
            fin (chiefQ dq fpq fsq (specBackfocusQ spec)
              (specFieldRadiusQ spec)) := by
          by_cases h4 : 0 < specFieldRadiusQ spec
          · rw [if_pos (lt_fin_eq_true h4), div_fin_fin _ (ne_of_gt hfsys)]
            unfold chiefQ
            rw [if_pos h4]
          · rw [if_neg (by simp [lt_fin_eq_false (not_lt.mp h4)])]
            unfold chiefQ
            rw [if_neg h4]
        rw [hchief]
        simp only [mul_fin_fin, add_fin_fin]
        have hsec : 2 * (coneQ dq fpq fsq (specBackfocusQ spec) +
            chiefQ dq fpq fsq (specBackfocusQ spec) (specFieldRadiusQ spec)) =
            secondaryQ dq fpq fsq (specBackfocusQ spec)
              (specFieldRadiusQ spec) := rfl
        rw [hsec]
        have hchief0 : 0 ≤ chiefQ dq fpq fsq (specBackfocusQ spec)
            (specFieldRadiusQ spec) :=
          chiefQ_nonneg hbq0 h3.1 hfsys
        have hsecpos : 0 < secondaryQ dq fpq fsq (specBackfocusQ spec)
            (specFieldRadiusQ spec) := by
          unfold secondaryQ
          linarith
        rw [if_neg (by simp [le_fin_eq_false hsecpos])]
        rw [if_neg (by
          push_neg
          exact ⟨hfs, h3, hsecpos⟩)]
  -- the branch where the spacing is out of range
      · rw [if_pos ?side, if_pos (Or.inr (Or.inl h3))]
        case side =>
          rcases not_and_or.mp h3 with hx | hx
          · have hle : spacingQ dq fpq fsq (specBackfocusQ spec) ≤ 0 :=
              not_lt.mp hx
            simp [le_fin_eq_true hle]
          · have hle : fpq * dq ≤ spacingQ dq fpq fsq (specBackfocusQ spec) :=
              not_lt.mp hx
            simp [le_fin_eq_true hle]

/-- C2: on any input spec, a finite positive aperture and finite focal
    ratios, the two-mirror solver computes magnification m = Fs/Fp,
    spacing d = (m * fPrimary - backfocus)/(m + 1), cone radius
    0.5 * D * (1 - d/fPrimary) and secondary diameter
    2 * (coneRadius + chiefRayHeight), and returns none exactly when the
    parameters are physically invalid: Fs not exceeding Fp, d not
    strictly between 0 and fPrimary, or a non-positive secondary
    diameter; in particular the Cassegrain generator returns none at
    Fp = 4, Fs = 4. -/
theorem twoMirrorLayout_claim (spec : InputSpec) (dq fpq fsq : ℚ)
    (hD : 0 < dq) :
    (twoMirrorLayout spec (fin dq) (fin fpq) (fin fsq) = none ↔
      (fsq ≤ fpq ∨
        ¬(0 < spacingQ dq fpq fsq (specBackfocusQ spec) ∧
          spacingQ dq fpq fsq (specBackfocusQ spec) < fpq * dq) ∨
        secondaryQ dq fpq fsq (specBackfocusQ spec)
          (specFieldRadiusQ spec) ≤ 0)) ∧
    (∀ l, twoMirrorLayout spec (fin dq) (fin fpq) (fin fsq) = some l →
      l.magnification = fin (fsq / fpq) ∧
      l.dPrimaryToSecondary_mm =
        fin (spacingQ dq fpq fsq (specBackfocusQ spec)) ∧
      l.coneRadiusAtSecondary_mm =
        fin (coneQ dq fpq fsq (specBackfocusQ spec)) ∧
      l.secondaryDiameter_mm =
        fin (secondaryQ dq fpq fsq (specBackfocusQ spec)
          (specFieldRadiusQ spec)) ∧
      l.backFocus_mm = fin (specBackfocusQ spec)) ∧
    (∀ (o : RayOracle) (spec' : InputSpec),
      cassegrainGen o spec'
        { primaryFRatio := fin 4, systemFRatio := fin 4 } = none) := by
  refine ⟨?_, ?_, ?_⟩
  · rw [twoMirrorLayout_eval spec dq fpq fsq hD]
    split
    · exact iff_of_true rfl (by assumption)
    · exact iff_of_false (by simp) (by assumption)
  · intro l hl
    rw [twoMirrorLayout_eval spec dq fpq fsq hD] at hl
    split at hl
    · exact absurd hl (by simp)
    · have hrec := Option.some.inj hl
      rw [← hrec]
      exact ⟨rfl, rfl, rfl, rfl, rfl⟩
  · intro o spec'
    unfold cassegrainGen
    dsimp only
    split_ifs with h1 h2 h3 <;> try rfl
    exact absurd (le_fin_eq_true (le_refl (4:ℚ))) h3

/-- Witness for C2 at a 200 mm aperture with Fp = 4, Fs = 8. -/
theorem twoMirrorLayout_claim_witness :
    (0:ℚ) < 200 ∧
    (twoMirrorLayout specBase (fin 200) (fin 4) (fin 8) = none ↔
      ((8:ℚ) ≤ 4 ∨
        ¬(0 < spacingQ 200 4 8 (specBackfocusQ specBase) ∧
          spacingQ 200 4 8 (specBackfocusQ specBase) < 4 * 200) ∨
        secondaryQ 200 4 8 (specBackfocusQ specBase)
          (specFieldRadiusQ specBase) ≤ 0)) :=
  ⟨by norm_num, (twoMirrorLayout_claim specBase 200 4 8 (by norm_num)).1⟩

/- ----------------------------------------------------------------
   Shape lemmas for the generators (C1).
----------------------------------------------------------------- -/

theorem toMm_zero (u : LenUnits) : toMm (fin 0) u = fin 0 := by
  cases u <;> simp [toMm]

theorem clamp_toMm_zero (u : LenUnits) :
    clampNonNegativeFinite (toMm (fin 0) u) = fin 0 := by
  rw [toMm_zero, clampNonNegativeFinite_eq]
  norm_num [clampQ]

/-- The two-mirror solver always reports as backfocus the clamped
    millimeter value of the spec's minimum backfocus: the constraint's
    minimum is used as the actual backfocus of the solve. -/
theorem twoMirrorLayout_backFocus {spec : InputSpec} {D Fp Fs : JsNum}
    {l : TwoMirrorLayout} (h : twoMirrorLayout spec D Fp Fs = some l) :
    l.backFocus_mm = clampNonNegativeFinite
      (toMm spec.constraints.minBackFocus spec.constraints.backFocusUnits) := by
  unfold twoMirrorLayout at h
  dsimp only at h
  split_ifs at h <;>
    first
    | exact Option.noConfusion h
    | (cases Option.some.inj h; rfl)

theorem newtonianGen_kind {o : RayOracle} {spec : InputSpec}
    {params : DesignParams} {raw : Candidate}
    (h : newtonianGen o spec params = some raw) : raw.kind = .newtonian := by
  unfold newtonianGen at h
  dsimp only at h
  split_ifs at h <;>
    first
    | exact Option.noConfusion h
    | (cases Option.some.inj h; rfl)

theorem cassegrainGen_shape {o : RayOracle} {spec : InputSpec}
    {params : DesignParams} {raw : Candidate}
    (h : cassegrainGen o spec params = some raw) :
    raw.kind = .cassegrain ∧
    raw.geometry.backFocus_mm = clampNonNegativeFinite
      (toMm spec.constraints.minBackFocus spec.constraints.backFocusUnits) := by
  unfold cassegrainGen at h
  dsimp only at h
  rcases hlay : twoMirrorLayout spec (toMm spec.aperture spec.apertureUnits)
      params.primaryFRatio params.systemFRatio with - | layout <;>
    rw [hlay] at h <;>
    dsimp only at h <;>
    split_ifs at h <;>
    first
    | exact Option.noConfusion h
    | (cases Option.some.inj h
       exact ⟨rfl, twoMirrorLayout_backFocus hlay⟩)

theorem sctGen_shape {spec : InputSpec} {params : DesignParams}
    {raw : Candidate} (h : sctGen spec params = some raw) :
    raw.kind = .sct ∧
    raw.geometry.backFocus_mm = clampNonNegativeFinite
      (toMm spec.constraints.minBackFocus spec.constraints.backFocusUnits) := by
  unfold sctGen at h
  dsimp only at h
  rcases hlay : twoMirrorLayout spec (toMm spec.aperture spec.apertureUnits)
      params.primaryFRatio params.systemFRatio with - | layout <;>
    rw [hlay] at h <;>
    dsimp only at h
  · exact Option.noConfusion h
  · cases Option.some.inj h
    exact ⟨rfl, twoMirrorLayout_backFocus hlay⟩

theorem rcGen_shape {o : RayOracle} {spec : InputSpec} {params : DesignParams}
    {raw : Candidate} (h : rcGen o spec params = some raw) :
    raw.kind = .rc ∧
    raw.geometry.backFocus_mm = clampNonNegativeFinite
      (toMm spec.constraints.minBackFocus spec.constraints.backFocusUnits) := by
  unfold rcGen at h
  dsimp only at h
  rcases hlay : twoMirrorLayout spec (toMm spec.aperture spec.apertureUnits)
      params.primaryFRatio params.systemFRatio with - | layout <;>
    rcases hsim : o.rcSim spec params with - | ⟨hd, tl⟩ <;>
    rw [hlay, hsim] at h <;>
    dsimp only at h <;>
    split_ifs at h <;>
    first
    | exact Option.noConfusion h
    | (cases Option.some.inj h
       exact ⟨rfl, twoMirrorLayout_backFocus hlay⟩)

/-- C1 (amended): every folded candidate produced by runSweep carries
    backfocus 0 mm, because runSweep invokes the generators under the
    relaxed constraint set whose minimum backfocus is zero and the
    two-mirror solver uses that relaxed minimum as the actual backfocus;
    a generator invoked directly does use the user's minimum backfocus
    (clamped, in millimeters) as the actual backfocus. -/
theorem runSweep_folded_backfocus_zero (o : RayOracle) (spec : InputSpec)
    (topN : ℕ) :
    (∀ c ∈ (runSweep o spec topN).candidates, c.kind ≠ .newtonian →
      c.geometry.backFocus_mm = fin 0) ∧
    (∀ (spec' : InputSpec) (D Fp Fs : JsNum) (l : TwoMirrorLayout),
      twoMirrorLayout spec' D Fp Fs = some l →
      l.backFocus_mm = clampNonNegativeFinite
        (toMm spec'.constraints.minBackFocus
          spec'.constraints.backFocusUnits)) := by
  constructor
  · intro c hc hkind
    rw [runSweep_candidates] at hc
    obtain ⟨kind, params, raw, hgen, hcheck⟩ := mem_sweepCandidates hc
    have hGeom : c.geometry = raw.geometry := by
      rw [hcheck]
      rfl
    have hKind : c.kind = raw.kind := by
      rw [hcheck]
      rfl
    have hRelMin : (relaxedSpecForInference spec).constraints.minBackFocus
        = fin 0 := rfl
    cases kind with
    | newtonian =>
      simp only [runGenerator] at hgen
      exact absurd (hKind.trans (newtonianGen_kind hgen)) hkind
    | cassegrain =>
      simp only [runGenerator] at hgen
      have hs := (cassegrainGen_shape hgen).2
      rw [hGeom, hs, hRelMin, clamp_toMm_zero]
    | sct =>
      simp only [runGenerator] at hgen
      have hs := (sctGen_shape hgen).2
      rw [hGeom, hs, hRelMin, clamp_toMm_zero]
    | rc =>
      simp only [runGenerator] at hgen
      have hs := (rcGen_shape hgen).2
      rw [hGeom, hs, hRelMin, clamp_toMm_zero]
  · intro spec' D Fp Fs l hl
    exact twoMirrorLayout_backFocus hl

/- ----------------------------------------------------------------
   Evaluation helpers for enumerateRange on concrete singleton ranges.
----------------------------------------------------------------- -/

theorem enumLoopFin_single {mx st v : ℚ} (hst : 0 < st)
    (h1 : v ≤ mx + eps12) (h2 : ¬(v + st ≤ mx + eps12)) :
    enumLoopFin mx st hst v = [roundTo10 (fin v)] := by
  rw [enumLoopFin.eq_def, dif_pos h1, enumLoopFin.eq_def, dif_neg h2]

theorem enumerateRange_single {mn mx st : ℚ} (h0 : 0 < st) (hmx : mn ≤ mx)
    (h2 : ¬(mn + st ≤ mx + eps12)) :
    enumerateRange (fin mn) (fin mx) (fin st) = [roundTo10 (fin mn)] := by
  unfold enumerateRange
  rw [if_neg (by simp [le_fin_eq_false h0]), if_neg (by simp [lt_fin_eq_false hmx])]
  dsimp only
  rw [dif_pos h0]
  have heps : (0:ℚ) < eps12 := by norm_num [eps12]
  exact enumLoopFin_single h0 (by linarith) h2

set_option maxHeartbeats 2000000 in
/-- C1 (counterexample): with a 100 mm minimum-backfocus constraint, the
    single cassegrain candidate produced by runSweep carries
    geometry.backFocus_mm = 0, not the user's 100 mm minimum. -/
theorem runSweep_backfocus_counterexample :
    ((runSweep trivialOracle specBase 25).candidates.map
      (fun c => (c.kind, c.geometry.backFocus_mm))) =
      [(OpticDesignKind.cassegrain, fin 0)] ∧
    toMm specBase.constraints.minBackFocus specBase.constraints.backFocusUnits
      = fin 100 ∧
    (fin (0:ℚ) : JsNum) ≠ fin (100:ℚ) := by
  have henum4 : enumerateRange (fin 4) (fin 4) (fin 1) = [fin 4] := by
    rw [enumerateRange_single (by norm_num) (by norm_num) (by norm_num [eps12])]
    norm_num [roundTo10, round_eq]
  have henum8 : enumerateRange (fin 8) (fin 8) (fin 1) = [fin 8] := by
    rw [enumerateRange_single (by norm_num) (by norm_num) (by norm_num [eps12])]
    norm_num [roundTo10, round_eq]
  refine ⟨?_, by norm_num [specBase, toMm], by simp⟩
  rw [runSweep_candidates]
  norm_num [sweepCandidates, sweepKindCandidates, fpValuesOf, fsValuesOf,
    specBase, henum4, henum8, relaxedSpecForInference, runGenerator,
    cassegrainGen, twoMirrorLayout, toMm, clampNonNegativeFinite,
    le_fin_fin, lt_fin_fin, div_fin_fin, Bool.or_eq_true, Bool.and_eq_true,
    Bool.not_eq_true', decide_eq_true_eq, eps12, List.filterMap_cons,
    List.filterMap_nil, List.flatMap_cons, List.flatMap_nil,
    Option.map_some', Option.map_none']

set_option maxHeartbeats 800000 in
/-- Witness for C1 at the concrete 200 mm cassegrain solve. -/
theorem runSweep_folded_backfocus_zero_witness :
    (twoMirrorLayout specBase (fin 200) (fin 4) (fin 8)).map
      (fun l => l.backFocus_mm) =
      some (clampNonNegativeFinite (toMm specBase.constraints.minBackFocus
        specBase.constraints.backFocusUnits)) := by
  cases hl : twoMirrorLayout specBase (fin 200) (fin 4) (fin 8) with
  | none =>
    exfalso
    rw [twoMirrorLayout_eval specBase 200 4 8 (by norm_num)] at hl
    rw [if_neg] at hl
    · exact Option.noConfusion hl
    · push_neg
      norm_num [spacingQ, coneQ, chiefQ, secondaryQ, specBackfocusQ,
        specFieldRadiusQ, specBase, clampQ, toMm]
  | some l =>
    rw [Option.map_some']
    rw [(runSweep_folded_backfocus_zero trivialOracle specBase 25).2
      specBase (fin 200) (fin 4) (fin 8) l hl]

/- ----------------------------------------------------------------
   C7: empty ranges and the empty-result sweep.
----------------------------------------------------------------- -/

theorem enumerateRange_empty {mn mx st : JsNum}
    (h : lt mx mn = true ∨ le st (fin 0) = true) :
    enumerateRange mn mx st = [] := by
  unfold enumerateRange
  rcases h with h | h
  · by_cases h2 : le st (fin 0) = true
    · rw [if_pos h2]
    · rw [if_neg h2, if_pos h]
  · rw [if_pos h]

theorem sweepKindCandidates_nil_fp (o : RayOracle) (spec relaxed : InputSpec)
    (fs : List JsNum) (kind : OpticDesignKind) :
    sweepKindCandidates o spec relaxed [] fs kind = [] := by
  cases kind <;> rfl

theorem runSweep_empty_branch (o : RayOracle) (spec : InputSpec) (topN : ℕ)
    (h : ((sweepCandidates o spec).filter
      (fun c => c.constraints.pass)).isEmpty = true) :
    (runSweep o spec topN).ranked = [] ∧
    (runSweep o spec topN).bestOverall = none ∧
    (runSweep o spec topN).top = [] := by
  unfold runSweep
  dsimp only
  rw [if_pos h]
  exact ⟨rfl, rfl, rfl⟩

/-- C7: a sweep spec whose primary f-ratio range is empty (max below min,
    or a non-positive step) produces zero candidates, and whenever zero
    candidates pass the constraints runSweep returns the explicit empty
    ranking (ranked = [], bestOverall = null, top = []) instead of
    failing. -/
theorem runSweep_empty_claim (o : RayOracle) (spec : InputSpec) (topN : ℕ) :
    ((lt spec.sweep.primaryFRatioMax spec.sweep.primaryFRatioMin = true ∨
      le spec.sweep.primaryFRatioStep (fin 0) = true) →
      (runSweep o spec topN).candidates = []) ∧
    (((runSweep o spec topN).candidates.filter
        (fun c => c.constraints.pass)) = [] →
      (runSweep o spec topN).ranked = [] ∧
      (runSweep o spec topN).bestOverall = none ∧
      (runSweep o spec topN).top = []) := by
  constructor
  · intro h
    rw [runSweep_candidates]
    unfold sweepCandidates
    rw [show fpValuesOf spec = [] from enumerateRange_empty h]
    simp [sweepKindCandidates_nil_fp]
  · intro h
    rw [runSweep_candidates] at h
    exact runSweep_empty_branch o spec topN (List.isEmpty_iff.mpr h)

/-- Witness for C7 at a concrete spec with max primary f-ratio below min. -/
theorem runSweep_empty_claim_witness :
    (lt specEmpty.sweep.primaryFRatioMax specEmpty.sweep.primaryFRatioMin
      = true ∨
      le specEmpty.sweep.primaryFRatioStep (fin 0) = true) ∧
    (runSweep trivialOracle specEmpty 25).candidates = [] := by
  have h : lt specEmpty.sweep.primaryFRatioMax
      specEmpty.sweep.primaryFRatioMin = true ∨
      le specEmpty.sweep.primaryFRatioStep (fin 0) = true :=
    Or.inl (by norm_num [specEmpty, specBase, lt_fin_fin])
  exact ⟨h, (runSweep_empty_claim trivialOracle specEmpty 25).1 h⟩

set_option maxHeartbeats 2000000 in
/-- Witness for C9 at the head candidate of the concrete base sweep. -/
theorem runSweep_pass_iff_no_reasons_witness :
    ((runSweep trivialOracle specBase 25).candidates.head!.constraints.pass
      = true ↔
    (runSweep trivialOracle specBase 25).candidates.head!.constraints.reasons
      = []) := by
  refine runSweep_pass_iff_no_reasons trivialOracle specBase 25 _
    (Or.inl (List.head!_mem_self ?_))
  have henum4 : enumerateRange (fin 4) (fin 4) (fin 1) = [fin 4] := by
    rw [enumerateRange_single (by norm_num) (by norm_num) (by norm_num [eps12])]
    norm_num [roundTo10, round_eq]
  have henum8 : enumerateRange (fin 8) (fin 8) (fin 1) = [fin 8] := by
    rw [enumerateRange_single (by norm_num) (by norm_num) (by norm_num [eps12])]
    norm_num [roundTo10, round_eq]
  rw [runSweep_candidates]
  norm_num [sweepCandidates, sweepKindCandidates, fpValuesOf, fsValuesOf,
    specBase, henum4, henum8, relaxedSpecForInference, runGenerator,
    cassegrainGen, twoMirrorLayout, toMm, clampNonNegativeFinite,
    le_fin_fin, lt_fin_fin, div_fin_fin, Bool.or_eq_true, Bool.and_eq_true,
    Bool.not_eq_true', decide_eq_true_eq, eps12, List.filterMap_cons,
    List.filterMap_nil, List.flatMap_cons, List.flatMap_nil,
    Option.map_some', Option.map_none']

/- ----------------------------------------------------------------
   C3: the aberration scoring term.
----------------------------------------------------------------- -/

theorem max2_fin_fin (a b : ℚ) : max2 (fin a) (fin b) = fin (max a b) := by
  by_cases h : a < b
  · simp [max2, JsNum.lt, h, max_eq_right h.le]
  · simp [max2, JsNum.lt, h, max_eq_left (not_lt.mp h)]

theorem clamp01_fin (q : ℚ) : clamp01 (fin q) = fin (clamp01Q q) := by
  simp only [clamp01, clamp01Q]
  split_ifs <;> rfl

theorem clamp01Q_mem (q : ℚ) : 0 ≤ clamp01Q q ∧ clamp01Q q ≤ 1 := by
  unfold clamp01Q
  split_ifs with h1 h2
  · exact ⟨le_refl 0, by norm_num⟩
  · exact ⟨by norm_num, le_refl 1⟩
  · exact ⟨(not_le.mp h1).le, (not_le.mp h2).le⟩

theorem clamp01Q_of_mem {q : ℚ} (h0 : 0 ≤ q) (h1 : q ≤ 1) : clamp01Q q = q := by
  unfold clamp01Q
  split_ifs with ha hb
  · exact (le_antisymm ha h0).symm
  · exact (le_antisymm h1 hb).symm
  · rfl

theorem clamp01Q_of_nonpos {q : ℚ} (h : q ≤ 0) : clamp01Q q = 0 := by
  unfold clamp01Q
  rw [if_pos h]

theorem clamp01Q_of_one_le {q : ℚ} (h : 1 ≤ q) : clamp01Q q = 1 := by
  unfold clamp01Q
  rw [if_neg (by linarith), if_pos h]

theorem boundsStep_nonfinite {c : Candidate} (acc : JsNum × JsNum)
    (hw : c.aberrations.wfeRms_waves_edge.isFinite = false) :
    boundsStep acc c = acc := by
  simp [boundsStep, hw]

theorem boundsStep_fst {c : Candidate} {q : ℚ} (acc : JsNum × JsNum)
    (hw : c.aberrations.wfeRms_waves_edge = fin q)
    (hinv : acc.1 = inf ∨ ∃ m, acc.1 = fin m) :
    ∃ r, (boundsStep acc c).1 = fin r ∧ r ≤ q ∧
      (∀ a, acc.1 = fin a → r ≤ a) := by
  rcases hinv with h | ⟨m, h⟩
  · refine ⟨q, ?_, le_refl q, ?_⟩
    · simp [boundsStep, hw, h, JsNum.lt]
    · intro a ha
      rw [h] at ha
      exact absurd ha (by simp)
  · by_cases hlt : q < m
    · refine ⟨q, ?_, le_refl q, ?_⟩
      · simp [boundsStep, hw, h, JsNum.lt, hlt]
      · intro a ha
        rw [h] at ha
        cases ha
        exact hlt.le
    · refine ⟨m, ?_, not_lt.mp hlt, ?_⟩
      · simp [boundsStep, hw, h, JsNum.lt, hlt]
      · intro a ha
        rw [h] at ha
        cases ha
        exact le_refl m

theorem boundsStep_snd {c : Candidate} {q : ℚ} (acc : JsNum × JsNum)
    (hw : c.aberrations.wfeRms_waves_edge = fin q)
    (hinv : acc.2 = neginf ∨ ∃ m, acc.2 = fin m) :
    ∃ r, (boundsStep acc c).2 = fin r ∧ q ≤ r ∧
      (∀ a, acc.2 = fin a → a ≤ r) := by
  rcases hinv with h | ⟨m, h⟩
  · refine ⟨q, ?_, le_refl q, ?_⟩
    · simp [boundsStep, hw, h, JsNum.lt]
    · intro a ha
      rw [h] at ha
      exact absurd ha (by simp)
  · by_cases hlt : m < q
    · refine ⟨q, ?_, le_refl q, ?_⟩
      · simp [boundsStep, hw, h, JsNum.lt, hlt]
      · intro a ha
        rw [h] at ha
        cases ha
        exact hlt.le
    · refine ⟨m, ?_, not_lt.mp hlt, ?_⟩
      · simp [boundsStep, hw, h, JsNum.lt, hlt]
      · intro a ha
        rw [h] at ha
        cases ha
        exact le_refl m

theorem boundsFold_all_nonfinite (l : List Candidate) (acc : JsNum × JsNum)
    (h : ∀ c ∈ l, c.aberrations.wfeRms_waves_edge.isFinite = false) :
    l.foldl boundsStep acc = acc := by
  induction l generalizing acc with
  | nil => rfl
  | cons c t ih =>
    rw [List.foldl_cons, boundsStep_nonfinite acc (h c (by simp))]
    exact ih acc (fun d hd => h d (List.mem_cons_of_mem _ hd))

theorem boundsFold_spec (l : List Candidate) :
    ∀ acc : JsNum × JsNum,
      (acc.1 = inf ∨ ∃ m, acc.1 = fin m) →
      (acc.2 = neginf ∨ ∃ m, acc.2 = fin m) →
      (∀ a, acc.1 = fin a →
        ∃ m, (l.foldl boundsStep acc).1 = fin m ∧ m ≤ a) ∧
      (∀ a, acc.2 = fin a →
        ∃ m, (l.foldl boundsStep acc).2 = fin m ∧ a ≤ m) ∧
      (∀ c ∈ l, ∀ q, c.aberrations.wfeRms_waves_edge = fin q →
        (∃ m, (l.foldl boundsStep acc).1 = fin m ∧ m ≤ q) ∧
        (∃ m, (l.foldl boundsStep acc).2 = fin m ∧ q ≤ m)) := by
  induction l with
  | nil =>
    intro acc hinv1 hinv2
    refine ⟨?_, ?_, ?_⟩
    · intro a ha
      exact ⟨a, ha, le_refl a⟩
    · intro a ha
      exact ⟨a, ha, le_refl a⟩
    · intro c hc
      exact absurd hc (by simp)
  | cons c t ih =>
    intro acc hinv1 hinv2
    rw [List.foldl_cons]
    by_cases hf : c.aberrations.wfeRms_waves_edge.isFinite = true
    · obtain ⟨q, hq⟩ := isFinite_iff.mp hf
      obtain ⟨r1, hr1, hr1q, hr1m⟩ := boundsStep_fst acc hq hinv1
      obtain ⟨r2, hr2, hqr2, hr2m⟩ := boundsStep_snd acc hq hinv2
      obtain ⟨ih1, ih2, ih3⟩ := ih (boundsStep acc c)
        (Or.inr ⟨r1, hr1⟩) (Or.inr ⟨r2, hr2⟩)
      refine ⟨?_, ?_, ?_⟩
      · intro a ha
        obtain ⟨m, hm, hma⟩ := ih1 r1 hr1
        exact ⟨m, hm, le_trans hma (hr1m a ha)⟩
      · intro a ha
        obtain ⟨m, hm, hma⟩ := ih2 r2 hr2
        exact ⟨m, hm, le_trans (hr2m a ha) hma⟩
      · intro d hd p hp
        rcases List.mem_cons.mp hd with hd | hd
        · subst hd
          rw [hp] at hq
          cases hq
          constructor
          · obtain ⟨m, hm, hma⟩ := ih1 r1 hr1
            exact ⟨m, hm, le_trans hma hr1q⟩
          · obtain ⟨m, hm, hma⟩ := ih2 r2 hr2
            exact ⟨m, hm, le_trans hqr2 hma⟩
        · exact ih3 d hd p hp
    · have hw : c.aberrations.wfeRms_waves_edge.isFinite = false :=
        Bool.eq_false_iff.mpr hf
      rw [boundsStep_nonfinite acc hw]
      obtain ⟨ih1, ih2, ih3⟩ := ih acc hinv1 hinv2
      refine ⟨ih1, ih2, ?_⟩
      intro d hd p hp
      rcases List.mem_cons.mp hd with hd | hd
      · subst hd
        rw [hp] at hw
        exact absurd hw (by simp)
      · exact ih3 d hd p hp

theorem computeScoreBounds_mem {batch : List Candidate} {c : Candidate}
    {wq : ℚ} (hc : c ∈ batch)
    (hw : c.aberrations.wfeRms_waves_edge = fin wq) :
    ∃ mn mx : ℚ, (computeScoreBounds batch).minWfeRms = fin mn ∧
      (computeScoreBounds batch).maxWfeRms = fin mx ∧
      mn ≤ wq ∧ wq ≤ mx ∧ mn < mx := by
  obtain ⟨-, -, h3⟩ := boundsFold_spec batch (inf, neginf)
    (Or.inl rfl) (Or.inl rfl)
  obtain ⟨⟨m1, hm1, hm1q⟩, ⟨m2, hm2, hqm2⟩⟩ := h3 c hc wq hw
  unfold computeScoreBounds
  dsimp only
  rw [hm1, hm2]
  by_cases hle : m2 ≤ m1
  · refine ⟨m1, m1 + 1, ?_, ?_, hm1q, by linarith, by linarith⟩
    · simp
    · simp [JsNum.le, hle, JsNum.add]
  · refine ⟨m1, m2, ?_, ?_, hm1q, hqm2, not_le.mp hle⟩
    · simp
    · simp [JsNum.le, hle]

theorem computeScoreBounds_nonfinite {batch : List Candidate}
    (h : ∀ c ∈ batch, c.aberrations.wfeRms_waves_edge.isFinite = false) :
    computeScoreBounds batch =
      { minWfeRms := fin 0, maxWfeRms := fin 1, wfeScale := fin 1 } := by
  unfold computeScoreBounds
  rw [boundsFold_all_nonfinite batch (inf, neginf) h]
  simp [JsNum.isFinite, JsNum.add]

theorem scoreCandidate_aberration_eval (c : Candidate) (b : ScoreBounds)
    (w : WeightSpec) {mn mx wq : ℚ} (hmn : b.minWfeRms = fin mn)
    (hmx : b.maxWfeRms = fin mx)
    (hw : c.aberrations.wfeRms_waves_edge = fin wq) :
    (scoreCandidate c b w).score.terms.aberration =
      fin (1 - clamp01Q ((wq - mn) / max eps12 (mx - mn))) := by
  have hD : (0:ℚ) < max eps12 (mx - mn) :=
    lt_of_lt_of_le (by norm_num [eps12]) (le_max_left _ _)
  unfold scoreCandidate
  dsimp only
  rw [hw, hmn, hmx]
  simp only [finiteOr, isFinite_fin, if_true, ite_true, sub_fin_fin,
    max2_fin_fin, div_fin_fin _ (ne_of_gt hD), clamp01_fin]
  obtain ⟨h0, h1⟩ := clamp01Q_mem ((wq - mn) / max eps12 (mx - mn))
  rw [clamp01Q_of_mem (by linarith) (by linarith)]

theorem scoreCandidate_aberration_nonfinite (c : Candidate) (b : ScoreBounds)
    (w : WeightSpec) (hw : c.aberrations.wfeRms_waves_edge.isFinite = false) :
    (scoreCandidate c b w).score.terms.aberration = fin 0 := by
  unfold scoreCandidate
  dsimp only
  have hnan : finiteOr c.aberrations.wfeRms_waves_edge nan = nan := by
    simp [finiteOr, hw]
  rw [hnan]
  simp [JsNum.isFinite, JsNum.sub, clamp01]

/-- C3 (amended): computeScoreBounds defaults to the [0, 1] window when the
    batch has no finite wavefront errors; a candidate with a non-finite
    wavefront error always receives aberration term 0; and for a member of
    the batch with finite wavefront error wq the bounds bracket wq, and the
    aberration term equals 1 - clamp01((wq - min) / max(1e-12, max - min)).
    In particular the worst member scores 0 only when the adjusted span
    max - min is at least 1e-12, and a member at the minimum scores 1. -/
theorem scoreCandidate_aberration_claim :
    (∀ batch : List Candidate,
      (∀ c ∈ batch, c.aberrations.wfeRms_waves_edge.isFinite = false) →
      computeScoreBounds batch =
        { minWfeRms := fin 0, maxWfeRms := fin 1, wfeScale := fin 1 }) ∧
    (∀ (c : Candidate) (b : ScoreBounds) (w : WeightSpec),
      c.aberrations.wfeRms_waves_edge.isFinite = false →
      (scoreCandidate c b w).score.terms.aberration = fin 0) ∧
    (∀ (batch : List Candidate) (w : WeightSpec) (c : Candidate),
      c ∈ batch → ∀ wq : ℚ, c.aberrations.wfeRms_waves_edge = fin wq →
      ∃ mn mx : ℚ,
        (computeScoreBounds batch).minWfeRms = fin mn ∧
        (computeScoreBounds batch).maxWfeRms = fin mx ∧
        mn ≤ wq ∧ wq ≤ mx ∧ mn < mx ∧
        ((scoreCandidate c (computeScoreBounds batch) w).score.terms.aberration
          = fin (1 - clamp01Q ((wq - mn) / max eps12 (mx - mn)))) ∧
        (mx ≤ wq → eps12 ≤ mx - mn →
          (scoreCandidate c (computeScoreBounds batch) w).score.terms.aberration
            = fin 0) ∧
        (wq ≤ mn →
          (scoreCandidate c (computeScoreBounds batch) w).score.terms.aberration
            = fin 1)) := by
  refine ⟨?_, ?_, ?_⟩
  · intro batch h
    exact computeScoreBounds_nonfinite h
  · intro c b w h
    exact scoreCandidate_aberration_nonfinite c b w h
  · intro batch w c hc wq hw
    obtain ⟨mn, mx, hmn, hmx, hmnw, hwmx, hmnmx⟩ := computeScoreBounds_mem hc hw
    have heval := scoreCandidate_aberration_eval c (computeScoreBounds batch)
      w hmn hmx hw
    have hD : (0:ℚ) < max eps12 (mx - mn) :=
      lt_of_lt_of_le (by norm_num [eps12]) (le_max_left _ _)
    refine ⟨mn, mx, hmn, hmx, hmnw, hwmx, hmnmx, heval, ?_, ?_⟩
    · intro hworst hspan
      rw [heval]
      have hDeq : max eps12 (mx - mn) = mx - mn := max_eq_right hspan
      rw [hDeq]
      have hpos : (0:ℚ) < mx - mn := by linarith [hspan]
      have hratio : (1:ℚ) ≤ (wq - mn) / (mx - mn) :=
        (one_le_div hpos).mpr (by linarith)
      rw [clamp01Q_of_one_le hratio]
      norm_num
    · intro hbest
      rw [heval]
      have hratio : (wq - mn) / max eps12 (mx - mn) ≤ 0 :=
        div_nonpos_iff.mpr (Or.inr ⟨by linarith, hD.le⟩)
      rw [clamp01Q_of_nonpos hratio]
      norm_num

/-- C3 (counterexample): in a singleton batch the sole candidate carries
    the worst finite wavefront error of the batch, yet its aberration term
    is 1, not 0: computeScoreBounds forces the degenerate max up to
    min + 1, so the claimed worst-scores-0 normalisation fails. -/
theorem scoreCandidate_worst_counterexample :
    (mkCandW (fin (1/2))).aberrations.wfeRms_waves_edge = fin (1/2) ∧
    (∀ d ∈ [mkCandW (fin (1/2))], ∀ q : ℚ,
      d.aberrations.wfeRms_waves_edge = fin q → q ≤ 1/2) ∧
    (scoreCandidate (mkCandW (fin (1/2)))
      (computeScoreBounds [mkCandW (fin (1/2))]) wBase).score.terms.aberration
      = fin 1 ∧
    (fin (1:ℚ) : JsNum) ≠ fin (0:ℚ) := by
  refine ⟨rfl, ?_, ?_, by simp⟩
  · intro d hd q hq
    rw [List.mem_singleton] at hd
    subst hd
    rw [show (mkCandW (fin (1/2))).aberrations.wfeRms_waves_edge
      = fin (1/2) from rfl] at hq
    cases hq
    exact le_refl _
  · norm_num [scoreCandidate, computeScoreBounds, boundsStep, mkCandW, wBase,
      clamp01, finiteOr, max2, JsNum.lt, JsNum.le, JsNum.add, JsNum.sub,
      JsNum.mul, JsNum.div, JsNum.isFinite, eps12,
      OBSTRUCTION_CONTRAST_COEFFICIENT]

/-- Witness for C3 on the two-candidate batch with wavefront errors 0 and
    1: the worst member's aberration term is 0 and the best member's is 1. -/
theorem scoreCandidate_aberration_claim_witness :
    ((scoreCandidate (mkCandW (fin 1))
      (computeScoreBounds [mkCandW (fin 0), mkCandW (fin 1)])
      wBase).score.terms.aberration = fin 0) ∧
    ((scoreCandidate (mkCandW (fin 0))
      (computeScoreBounds [mkCandW (fin 0), mkCandW (fin 1)])
      wBase).score.terms.aberration = fin 1) := by
  have hb : computeScoreBounds [mkCandW (fin 0), mkCandW (fin 1)] =
      { minWfeRms := fin 0, maxWfeRms := fin 1, wfeScale := fin 1 } := by
    norm_num [computeScoreBounds, boundsStep, mkCandW, JsNum.lt, JsNum.le,
      JsNum.isFinite, JsNum.add]
  obtain ⟨-, -, hmain⟩ := scoreCandidate_aberration_claim
  constructor
  · obtain ⟨mn, mx, hmn, hmx, -, -, -, -, hworst, -⟩ :=
      hmain [mkCandW (fin 0), mkCandW (fin 1)] wBase (mkCandW (fin 1))
        (by simp) 1 rfl
    rw [hb] at hmn hmx
    simp only [JsNum.fin.injEq] at hmn hmx
    subst hmn
    subst hmx
    exact hworst (le_refl 1) (by norm_num [eps12])
  · obtain ⟨mn, mx, hmn, hmx, -, -, -, -, -, hbest⟩ :=
      hmain [mkCandW (fin 0), mkCandW (fin 1)] wBase (mkCandW (fin 0))
        (by simp) 0 rfl
    rw [hb] at hmn hmx
    simp only [JsNum.fin.injEq] at hmn hmx
    subst hmn
    exact hbest (le_refl 0)

/- ----------------------------------------------------------------
   C6: ordering of the ranked list.
----------------------------------------------------------------- -/

theorem mul_nan_left (v : JsNum) : mul nan v = nan := by
  cases v <;> rfl

theorem mul_nan_right (v : JsNum) : mul v nan = nan := by
  cases v <;> rfl

theorem add_nan_left (v : JsNum) : add nan v = nan := by
  cases v <;> rfl

theorem add_nan_right (v : JsNum) : add v nan = nan := by
  cases v <;> rfl

theorem clamp01_isFinite (v : JsNum) : (clamp01 v).isFinite = true := by
  cases v with
  | fin q =>
    rw [clamp01_fin]
    rfl
  | nan => rfl
  | inf => rfl
  | neginf => rfl

theorem mul_isFinite_of {u v : JsNum} (hu : u.isFinite = true)
    (hv : v.isFinite = true) : (mul u v).isFinite = true := by
  obtain ⟨a, ha⟩ := isFinite_iff.mp hu
  obtain ⟨b, hb⟩ := isFinite_iff.mp hv
  rw [ha, hb, mul_fin_fin]
  rfl

theorem add_isFinite_of {u v : JsNum} (hu : u.isFinite = true)
    (hv : v.isFinite = true) : (add u v).isFinite = true := by
  obtain ⟨a, ha⟩ := isFinite_iff.mp hu
  obtain ⟨b, hb⟩ := isFinite_iff.mp hv
  rw [ha, hb, add_fin_fin]
  rfl

theorem scoreCandidate_total_finite (c : Candidate) (b : ScoreBounds)
    {w : WeightSpec} (h1 : w.usableLight.isFinite = true)
    (h2 : w.aberration.isFinite = true)
    (h3 : w.obstruction.isFinite = true) :
    (scoreCandidate c b w).score.total.isFinite = true := by
  unfold scoreCandidate
  dsimp only
  exact add_isFinite_of
    (add_isFinite_of (mul_isFinite_of h1 (clamp01_isFinite _))
      (mul_isFinite_of h2 (clamp01_isFinite _)))
    (mul_isFinite_of h3 (clamp01_isFinite _))

theorem jsle_of_jslt {u v : JsNum} (hu : u.isFinite = true)
    (hv : v.isFinite = true) (h : lt u v = true) : le u v = true := by
  obtain ⟨a, ha⟩ := isFinite_iff.mp hu
  obtain ⟨b, hb⟩ := isFinite_iff.mp hv
  rw [ha, hb] at h ⊢
  rw [le_fin_iff]
  rw [lt_fin_iff] at h
  exact h.le

theorem jsle_of_not_jslt {u v : JsNum} (hu : u.isFinite = true)
    (hv : v.isFinite = true) (h : ¬(lt u v = true)) : le v u = true := by
  obtain ⟨a, ha⟩ := isFinite_iff.mp hu
  obtain ⟨b, hb⟩ := isFinite_iff.mp hv
  rw [ha, hb] at h ⊢
  rw [le_fin_iff]
  rw [lt_fin_iff] at h
  exact not_lt.mp h

theorem rankedInsert_sorted (x : Candidate) (l : List Candidate)
    (hx : x.score.total.isFinite = true)
    (hl : ∀ y ∈ l, y.score.total.isFinite = true)
    (hc : rankedSortedDesc l) : rankedSortedDesc (rankedInsert x l) := by
  induction l with
  | nil => simp [rankedInsert, rankedSortedDesc]
  | cons y ys ih =>
    have hy := hl y (List.mem_cons_self y ys)
    have hys : ∀ z ∈ ys, z.score.total.isFinite = true :=
      fun z hz => hl z (List.mem_cons_of_mem _ hz)
    have hcys : rankedSortedDesc ys := (List.chain'_cons'.mp hc).2
    simp only [rankedInsert]
    split_ifs with hlt
    · apply List.chain'_cons'.mpr
      refine ⟨?_, ih hys hcys⟩
      intro b hb
      cases ys with
      | nil =>
        simp only [rankedInsert, List.head?_cons, Option.mem_def,
          Option.some.injEq] at hb
        subst hb
        exact jsle_of_jslt hx hy hlt
      | cons z zs =>
        simp only [rankedInsert] at hb
        split_ifs at hb with hlt2
        · simp only [List.head?_cons, Option.mem_def, Option.some.injEq] at hb
          subst hb
          exact (List.chain'_cons.mp hc).1
        · simp only [List.head?_cons, Option.mem_def, Option.some.injEq] at hb
          subst hb
          exact jsle_of_jslt hx hy hlt
    · exact List.chain'_cons.mpr ⟨jsle_of_not_jslt hx hy hlt, hc⟩

theorem sortByTotalDesc_sorted (l : List Candidate)
    (hl : ∀ y ∈ l, y.score.total.isFinite = true) :
    rankedSortedDesc (sortByTotalDesc l) := by
  induction l with
  | nil => exact List.chain'_nil
  | cons y ys ih =>
    have hys : ∀ z ∈ ys, z.score.total.isFinite = true :=
      fun z hz => hl z (List.mem_cons_of_mem _ hz)
    show rankedSortedDesc (rankedInsert y (sortByTotalDesc ys))
    exact rankedInsert_sorted y (sortByTotalDesc ys)
      (hl y (List.mem_cons_self y ys))
      (fun z hz => hys z (mem_sortByTotalDesc.mp hz)) (ih hys)

/-- C6 (amended): whenever the three scoring weights are finite numbers,
    the ranked list of runSweep is sorted by score.total in descending
    order: every adjacent pair satisfies total[i] >= total[i+1]. (The
    embedded sort is the stable insertion sort that Array.prototype.sort
    guarantees, so equal totals keep their enumeration order by
    construction; with a non-finite weight the totals become NaN and the
    descending-order guarantee fails, see the counterexample.) -/
theorem runSweep_ranked_sorted (o : RayOracle) (spec : InputSpec) (topN : ℕ)
    (h1 : spec.weights.usableLight.isFinite = true)
    (h2 : spec.weights.aberration.isFinite = true)
    (h3 : spec.weights.obstruction.isFinite = true) :
    rankedSortedDesc (runSweep o spec topN).ranked := by
  rw [runSweep_ranked]
  split
  · exact List.chain'_nil
  · apply sortByTotalDesc_sorted
    intro y hy
    rw [List.mem_map] at hy
    obtain ⟨c, -, hc⟩ := hy
    rw [← hc]
    exact scoreCandidate_total_finite c _ h1 h2 h3

/-- Witness for C6 at the concrete passing sweep with unit weights. -/
theorem runSweep_ranked_sorted_witness :
    rankedSortedDesc (runSweep trivialOracle specPass 25).ranked :=
  runSweep_ranked_sorted trivialOracle specPass 25 rfl rfl rfl

theorem enumLoopFin_pair {mx st v : ℚ} (hst : 0 < st)
    (h1 : v ≤ mx + eps12) (h2 : v + st ≤ mx + eps12)
    (h3 : ¬(v + st + st ≤ mx + eps12)) :
    enumLoopFin mx st hst v =
      [roundTo10 (fin v), roundTo10 (fin (v + st))] := by
  rw [enumLoopFin.eq_def, dif_pos h1, enumLoopFin_single hst h2 h3]

theorem enumerateRange_pair {mn mx st : ℚ} (h0 : 0 < st) (hmx : mn ≤ mx)
    (h2 : mn + st ≤ mx + eps12) (h3 : ¬(mn + st + st ≤ mx + eps12)) :
    enumerateRange (fin mn) (fin mx) (fin st) =
      [roundTo10 (fin mn), roundTo10 (fin (mn + st))] := by
  unfold enumerateRange
  rw [if_neg (by simp [le_fin_eq_false h0]),
    if_neg (by simp [lt_fin_eq_false hmx])]
  dsimp only
  rw [dif_pos h0]
  have heps : (0:ℚ) < eps12 := by norm_num [eps12]
  exact enumLoopFin_pair h0 (by linarith) h2 h3

theorem not_sorted_of_totals_nan {l : List Candidate}
    (h : l.map (fun c => c.score.total) = [nan, nan]) :
    ¬ rankedSortedDesc l := by
  cases l with
  | nil => simp at h
  | cons a t =>
    cases t with
    | nil => simp at h
    | cons b t2 =>
      cases t2 with
      | nil =>
        simp only [List.map_cons, List.map_nil, List.cons.injEq,
          and_true] at h
        obtain ⟨ha, hb⟩ := h
        intro hs
        have hrel := (List.chain'_cons.mp hs).1
        rw [ha, hb] at hrel
        exact absurd hrel (by simp [JsNum.le])
      | cons c t3 => simp at h

theorem lt_fin_inf (a : ℚ) : lt (fin a) inf = true := rfl

theorem lt_nan_left (v : JsNum) : lt nan v = false := by
  cases v <;> rfl

theorem lt_nan_right (v : JsNum) : lt v nan = false := by
  cases v <;> rfl

theorem lt_neginf_fin (a : ℚ) : lt neginf (fin a) = true := rfl

set_option maxHeartbeats 4000000 in
/-- C6 (counterexample): with a NaN usable-light weight both candidates of
    the concrete sweep receive NaN totals and the ranked list fails the
    descending-order property on its single adjacent pair: the JavaScript
    comparator yields NaN, total[0] >= total[1] is false, and runSweep
    never sanitises the weights. -/
theorem runSweep_ranked_unsorted_counterexample :
    ((runSweep trivialOracle specNanWeight 25).ranked.map
      (fun c => c.score.total)) = [nan, nan] ∧
    ¬ rankedSortedDesc (runSweep trivialOracle specNanWeight 25).ranked := by
  have henum4 : enumerateRange (fin 4) (fin 4) (fin 1) = [fin 4] := by
    rw [enumerateRange_single (by norm_num) (by norm_num) (by norm_num [eps12])]
    norm_num [roundTo10, round_eq]
  have henum810 : enumerateRange (fin 8) (fin 10) (fin 2)
      = [fin 8, fin 10] := by
    rw [enumerateRange_pair (by norm_num) (by norm_num) (by norm_num [eps12])
      (by norm_num [eps12])]
    norm_num [roundTo10, round_eq]
  have hmap : ((runSweep trivialOracle specNanWeight 25).ranked.map
      (fun c => c.score.total)) = [nan, nan] := by
    rw [runSweep_ranked]
    norm_num [sweepCandidates, sweepKindCandidates, fpValuesOf, fsValuesOf,
      specNanWeight, specPass, specBase, henum4, henum810,
      relaxedSpecForInference, runGenerator, cassegrainGen, twoMirrorLayout,
      toMm, clampNonNegativeFinite, checkConstraints, scoreCandidate,
      computeScoreBounds, boundsStep, clamp01, finiteOr, max2,
      sortByTotalDesc, rankedInsert, adaptRaytraceToMetrics, airyRadiusMm,
      isFiniteNonNeg, isFinitePos, strehlFromBlurRatio, jsExp, zeroIq,
      trivialOracle, areaCircle, powTwo, orFalsy, piQ, WAVELENGTH_MM,
      DEFAULT_REFLECTIVITY_PER_MIRROR, DEFAULT_TUBE_MARGIN_MM,
      CASSEGRAIN_BAFFLE_FACTOR, OBSTRUCTION_CONTRAST_COEFFICIENT,
      mul_nan_left, mul_nan_right, add_nan_left, add_nan_right,
      le_fin_fin, lt_fin_fin, lt_fin_inf, lt_neginf_fin, lt_nan_left,
      lt_nan_right, div_fin_fin,
      Bool.or_eq_true, Bool.and_eq_true,
      Bool.not_eq_true', decide_eq_true_eq, eps12, List.filterMap_cons,
      List.filterMap_nil, List.flatMap_cons, List.flatMap_nil,
      List.filter_cons, List.filter_nil, List.map_cons, List.map_nil,
      Option.map_some', Option.map_none']
  exact ⟨hmap, not_sorted_of_totals_nan hmap⟩

/- ----------------------------------------------------------------
   C5: the Strehl estimate of the raytrace adapter.
----------------------------------------------------------------- -/

theorem strehlFromBlurRatio_nonfinite (mexp : ℚ → ℚ) {v : JsNum}
    (h : v.isFinite = false) : strehlFromBlurRatio mexp v = fin 0 := by
  rw [strehlFromBlurRatio, if_pos (by simp [isFiniteNonNeg, h])]

theorem strehlFromBlurRatio_of_nonneg (mexp : ℚ → ℚ) {cq : ℚ}
    (h : 0 ≤ cq) : strehlFromBlurRatio mexp (fin cq)
      = fin (mexp (-(2 * piQ * cq * (2 * piQ * cq)))) := by
  rw [strehlFromBlurRatio,
    if_neg (by simp [isFiniteNonNeg, JsNum.isFinite, JsNum.le, h])]
  simp [jsExp]

/-- C5 (amended): for a finite positive system focal ratio and a finite
    non-negative edge spot RMS, the adapter's coma proxy equals
    spotRms / (1.22 * 0.00055mm * F); for any finite non-negative coma
    proxy c the Strehl estimate is exp(-(2 pi c)^2) under the abstract
    exponential model; and when the coma proxy is non-finite the Strehl
    output is the finite number 0, not a non-finite value. -/
theorem strehl_claim (mexp : ℚ → ℚ) (edge : ImageQualityResult) (F : JsNum)
    (onAxis : Option ImageQualityResult) :
    (∀ fq eq : ℚ, 0 < fq → 0 ≤ eq → F = fin fq → edge.spotRms_mm = fin eq →
      (adaptRaytraceToMetrics mexp edge F onAxis).coma_wfeRms_waves_edge
        = fin (eq / (61/50 * WAVELENGTH_MM * fq))) ∧
    (∀ cq : ℚ, 0 ≤ cq →
      (adaptRaytraceToMetrics mexp edge F onAxis).coma_wfeRms_waves_edge
        = fin cq →
      (adaptRaytraceToMetrics mexp edge F onAxis).strehl
        = fin (mexp (-(2 * piQ * cq * (2 * piQ * cq))))) ∧
    ((adaptRaytraceToMetrics mexp edge F onAxis).coma_wfeRms_waves_edge.isFinite
        = false →
      (adaptRaytraceToMetrics mexp edge F onAxis).strehl = fin 0) := by
  refine ⟨?_, ?_, ?_⟩
  · intro fq eq hf he hF hedge
    have hWL : (0:ℚ) < WAVELENGTH_MM := by norm_num [WAVELENGTH_MM]
    have hA : (0:ℚ) < 61/50 * WAVELENGTH_MM * fq := by positivity
    have hairy : airyRadiusMm (fin fq) = fin (61/50 * WAVELENGTH_MM * fq) := by
      have hpos : isFinitePos (fin fq) = true := by
        simp [isFinitePos, JsNum.isFinite, JsNum.lt, hf]
      simp [airyRadiusMm, hpos]
    unfold adaptRaytraceToMetrics
    dsimp only
    rw [hF, hedge, hairy]
    have h1 : isFiniteNonNeg (fin eq) = true := by
      simp [isFiniteNonNeg, JsNum.isFinite, JsNum.le, he]
    have h2 : isFinitePos (fin (61/50 * WAVELENGTH_MM * fq)) = true := by
      simp [isFinitePos, JsNum.isFinite, JsNum.lt, hA]
    simp [finiteOr, h1, h2, div_fin_fin _ (ne_of_gt hA)]
  · intro cq h0 hc
    unfold adaptRaytraceToMetrics at hc ⊢
    dsimp only at hc ⊢
    rw [hc]
    exact strehlFromBlurRatio_of_nonneg mexp h0
  · intro hc
    unfold adaptRaytraceToMetrics at hc ⊢
    dsimp only at hc ⊢
    exact strehlFromBlurRatio_nonfinite mexp hc

/-- C5 (counterexample): a NaN edge spot RMS makes the coma proxy NaN, yet
    the returned Strehl estimate is the finite number 0; non-finite input
    does not propagate as a non-finite Strehl output. -/
theorem strehl_nonfinite_counterexample :
    (adaptRaytraceToMetrics (fun q => q) { zeroIq with spotRms_mm := nan }
      (fin 10) none).coma_wfeRms_waves_edge = nan ∧
    (adaptRaytraceToMetrics (fun q => q) { zeroIq with spotRms_mm := nan }
      (fin 10) none).strehl = fin 0 ∧
    (fin (0:ℚ)).isFinite = true := by
  refine ⟨?_, ?_, rfl⟩ <;>
    norm_num [adaptRaytraceToMetrics, airyRadiusMm, isFiniteNonNeg,
      isFinitePos, finiteOr, strehlFromBlurRatio, jsExp, zeroIq,
      JsNum.isFinite, JsNum.le, JsNum.lt, WAVELENGTH_MM]

/-- Witness for C5 at the all-zero image-quality record with F = 10. -/
theorem strehl_claim_witness :
    (adaptRaytraceToMetrics (fun q => q) zeroIq (fin 10)
      none).coma_wfeRms_waves_edge = fin (0 / (61/50 * WAVELENGTH_MM * 10)) ∧
    (adaptRaytraceToMetrics (fun q => q) zeroIq (fin 10) none).strehl
      = fin 0 := by
  obtain ⟨h1, h2, -⟩ := strehl_claim (fun q => q) zeroIq (fin 10) none
  have hcoma := h1 10 0 (by norm_num) (le_refl 0) rfl rfl
  refine ⟨hcoma, ?_⟩
  have hz : (0:ℚ) / (61/50 * WAVELENGTH_MM * 10) = 0 := by
    norm_num
  rw [hz] at hcoma
  have hs := h2 0 (le_refl 0) hcoma
  rw [hs]
  norm_num

/- ----------------------------------------------------------------
   C4: the plane intersection of trace.ts.
----------------------------------------------------------------- -/

/-- C4 (amended): a hit returned by intersectPlane always has a finite
    non-negative parameter t, a finite denominator whose magnitude is at
    least the 1e-12 degeneracy threshold, a hit point obtained from the
    plane equation, and an in-plane distance within the outer aperture
    radius (the withinAperturePlane test). No inner-radius exclusion is
    performed: innerApertureRadius is never read, see the counterexample. -/
theorem intersectPlane_claim (msq : ℚ → ℚ) (surface : PlaneSurface)
    (rayIn : Ray) (hit : Hit)
    (h : intersectPlane msq surface rayIn = some hit) :
    (∃ tq : ℚ, hit.t = fin tq ∧ 0 ≤ tq) ∧
    (∃ dq : ℚ,
      Vec3.dotV (normalizeV msq surface.nHat) (normalizeV msq rayIn.d)
        = fin dq ∧ eps12 ≤ |dq|) ∧
    hit.t = div
      (Vec3.dotV (normalizeV msq surface.nHat)
        (Vec3.subV surface.p0 rayIn.o))
      (Vec3.dotV (normalizeV msq surface.nHat) (normalizeV msq rayIn.d)) ∧
    hit.p = Vec3.addV rayIn.o (Vec3.mulS (normalizeV msq rayIn.d) hit.t) ∧
    withinAperturePlane msq surface hit.p = true := by
  unfold intersectPlane at h
  dsimp only at h
  split_ifs at h with h1 h2 h3
  · cases Option.some.inj h
    simp only [Bool.or_eq_true, Bool.not_eq_true', not_or,
      Bool.not_eq_false] at h1 h2
    obtain ⟨hdfin, hdlt⟩ := h1
    obtain ⟨htfin, htlt⟩ := h2
    obtain ⟨dq, hdq⟩ := isFinite_iff.mp hdfin
    obtain ⟨tq, htq⟩ := isFinite_iff.mp htfin
    refine ⟨⟨tq, htq, ?_⟩, ⟨dq, hdq, ?_⟩, rfl, rfl, ?_⟩
    · rw [htq] at htlt
      simp only [lt_fin_fin, decide_eq_true_eq] at htlt
      exact not_lt.mp htlt
    · rw [hdq] at hdlt
      simp only [abs_fin, lt_fin_fin, decide_eq_true_eq] at hdlt
      exact not_lt.mp hdlt
    · simpa using h3

set_option maxHeartbeats 1000000 in
/-- C4 (counterexample): on the annular plane the axial ray hits dead
    centre, strictly inside the declared 0.5 mm inner radius, yet
    intersectPlane accepts the hit: the inner-radius exclusion claimed by
    the spec is absent from the code. -/
theorem intersectPlane_inner_counterexample :
    planeX.innerApertureRadius = some (fin (1/2)) ∧
    intersectPlane (fun q => q) planeX rayX = some hitW ∧
    hitW.p = planeX.p0 ∧
    ((0:ℚ) < 1/2) := by
  refine ⟨rfl, ?_, rfl, by norm_num⟩
  norm_num [intersectPlane, normalizeV, vnorm, jsSqrt, withinAperturePlane,
    Vec3.dotV, Vec3.addV, Vec3.subV, Vec3.mulS, planeX, rayX, hitW,
    JsNum.isFinite, JsNum.lt, JsNum.le, JsNum.abs, JsNum.add, JsNum.sub,
    JsNum.mul, JsNum.div, max2, eps12]

set_option maxHeartbeats 1000000 in
/-- Witness for C4 at the plain plane and the axial ray. -/
theorem intersectPlane_claim_witness :
    (∃ tq : ℚ, hitW.t = fin tq ∧ 0 ≤ tq) ∧
    (∃ dq : ℚ,
      Vec3.dotV (normalizeV (fun q => q) planeW.nHat)
        (normalizeV (fun q => q) rayX.d) = fin dq ∧ eps12 ≤ |dq|) ∧
    hitW.t = div
      (Vec3.dotV (normalizeV (fun q => q) planeW.nHat)
        (Vec3.subV planeW.p0 rayX.o))
      (Vec3.dotV (normalizeV (fun q => q) planeW.nHat)
        (normalizeV (fun q => q) rayX.d)) ∧
    hitW.p = Vec3.addV rayX.o
      (Vec3.mulS (normalizeV (fun q => q) rayX.d) hitW.t) ∧
    withinAperturePlane (fun q => q) planeW hitW.p = true :=
  intersectPlane_claim (fun q => q) planeW rayX hitW (by
    norm_num [intersectPlane, normalizeV, vnorm, jsSqrt, withinAperturePlane,
      Vec3.dotV, Vec3.addV, Vec3.subV, Vec3.mulS, planeW, planeX, rayX, hitW,
      JsNum.isFinite, JsNum.lt, JsNum.le, JsNum.abs, JsNum.add, JsNum.sub,
      JsNum.mul, JsNum.div, max2, eps12])

/- ----------------------------------------------------------------
   C8: the best-focus search of the simulator.
----------------------------------------------------------------- -/

theorem jsle_refl_fin {u : JsNum} (hu : u.isFinite = true) : le u u = true := by
  obtain ⟨a, ha⟩ := isFinite_iff.mp hu
  subst ha
  rw [le_fin_iff]

theorem jsle_trans {u v w : JsNum} (hu : u.isFinite = true)
    (hv : v.isFinite = true) (hw : w.isFinite = true)
    (h1 : le u v = true) (h2 : le v w = true) : le u w = true := by
  obtain ⟨a, ha⟩ := isFinite_iff.mp hu
  obtain ⟨b, hb⟩ := isFinite_iff.mp hv
  obtain ⟨c, hc⟩ := isFinite_iff.mp hw
  subst ha
  subst hb
  subst hc
  rw [le_fin_iff] at h1 h2 ⊢
  exact le_trans h1 h2

theorem focusFold_char (rmsAt : JsNum → RmsTriple) (step : JsNum) :
    ∀ (l : List ℤ) (acc : JsNum × RmsTriple),
      (l.foldl (focusSearchStep rmsAt step) acc = acc ∨
        ∃ i ∈ l, l.foldl (focusSearchStep rmsAt step) acc
            = (mul (fin (i:ℚ)) step, rmsAt (mul (fin (i:ℚ)) step)) ∧
          (rmsAt (mul (fin (i:ℚ)) step)).rms.isFinite = true) ∧
      ((l.foldl (focusSearchStep rmsAt step) acc).2.rms.isFinite = true →
        (∀ j ∈ l, ∀ q : ℚ, (rmsAt (mul (fin (j:ℚ)) step)).rms = fin q →
          le (l.foldl (focusSearchStep rmsAt step) acc).2.rms (fin q)
            = true) ∧
        (acc.2.rms.isFinite = true →
          le (l.foldl (focusSearchStep rmsAt step) acc).2.rms acc.2.rms
            = true)) ∧
      ((l.foldl (focusSearchStep rmsAt step) acc).2.rms.isFinite = false →
        l.foldl (focusSearchStep rmsAt step) acc = acc ∧
        ∀ i ∈ l, (rmsAt (mul (fin (i:ℚ)) step)).rms.isFinite = false) := by
  intro l
  induction l with
  | nil =>
    intro acc
    refine ⟨Or.inl rfl, ?_, ?_⟩
    · intro hfin
      exact ⟨fun j hj => absurd hj (by simp), fun _ => jsle_refl_fin hfin⟩
    · intro _
      exact ⟨rfl, fun i hi => absurd hi (by simp)⟩
  | cons c t ih =>
    intro acc
    rw [List.foldl_cons]
    by_cases hr : (rmsAt (mul (fin (c:ℚ)) step)).rms.isFinite = true
    · by_cases had : (!acc.2.rms.isFinite ||
          lt (rmsAt (mul (fin (c:ℚ)) step)).rms acc.2.rms) = true
      · have hstep : focusSearchStep rmsAt step acc c
            = (mul (fin (c:ℚ)) step, rmsAt (mul (fin (c:ℚ)) step)) := by
          simp only [focusSearchStep, hr, Bool.not_true, Bool.false_eq_true,
            if_false, had, if_true]
        rw [hstep]
        obtain ⟨ihA, ihB, ihC⟩ :=
          ih (mul (fin (c:ℚ)) step, rmsAt (mul (fin (c:ℚ)) step))
        refine ⟨?_, ?_, ?_⟩
        · rcases ihA with h | ⟨i, hi, hres, hfin⟩
          · exact Or.inr ⟨c, List.mem_cons_self c t, h, hr⟩
          · exact Or.inr ⟨i, List.mem_cons_of_mem _ hi, hres, hfin⟩
        · intro hfin
          obtain ⟨hmin, hvs⟩ := ihB hfin
          have hvsr := hvs hr
          refine ⟨?_, ?_⟩
          · intro j hj q hq
            rcases List.mem_cons.mp hj with rfl | hj
            · rw [hq] at hvsr
              exact hvsr
            · exact hmin j hj q hq
          · intro hafin
            have hlt : lt (rmsAt (mul (fin (c:ℚ)) step)).rms acc.2.rms
                = true := by
              simpa [hafin] using had
            exact jsle_trans hfin hr hafin hvsr (jsle_of_jslt hr hafin hlt)
        · intro hnf
          obtain ⟨hres, -⟩ := ihC hnf
          exfalso
          rw [hres] at hnf
          exact absurd hr (by simp [hnf])
      · have hafin : acc.2.rms.isFinite = true := by
          by_contra hcon
          have hfalse : acc.2.rms.isFinite = false := Bool.eq_false_iff.mpr hcon
          exact had (by simp [hfalse])
        have hnlt : ¬(lt (rmsAt (mul (fin (c:ℚ)) step)).rms acc.2.rms
            = true) := fun hl => had (by simp [hl])
        have hstep : focusSearchStep rmsAt step acc c = acc := by
          simp [focusSearchStep, hr, hafin, hnlt]
        rw [hstep]
        obtain ⟨ihA, ihB, ihC⟩ := ih acc
        refine ⟨?_, ?_, ?_⟩
        · rcases ihA with h | ⟨i, hi, hres, hfin⟩
          · exact Or.inl h
          · exact Or.inr ⟨i, List.mem_cons_of_mem _ hi, hres, hfin⟩
        · intro hfin
          obtain ⟨hmin, hvs⟩ := ihB hfin
          refine ⟨?_, hvs⟩
          intro j hj q hq
          rcases List.mem_cons.mp hj with rfl | hj
          · have h1 := hvs hafin
            have h2 := jsle_of_not_jslt hr hafin hnlt
            rw [hq] at h2
            exact jsle_trans hfin hafin (isFinite_fin q) h1 h2
          · exact hmin j hj q hq
        · intro hnf
          obtain ⟨hres, -⟩ := ihC hnf
          exfalso
          rw [hres] at hnf
          exact absurd hafin (by simp [hnf])
    · have hrf : (rmsAt (mul (fin (c:ℚ)) step)).rms.isFinite = false :=
        Bool.eq_false_iff.mpr hr
      have hstep : focusSearchStep rmsAt step acc c = acc := by
        simp [focusSearchStep, hrf]
      rw [hstep]
      obtain ⟨ihA, ihB, ihC⟩ := ih acc
      refine ⟨?_, ?_, ?_⟩
      · rcases ihA with h | ⟨i, hi, hres, hfin⟩
        · exact Or.inl h
        · exact Or.inr ⟨i, List.mem_cons_of_mem _ hi, hres, hfin⟩
      · intro hfin
        obtain ⟨hmin, hvs⟩ := ihB hfin
        refine ⟨?_, hvs⟩
        intro j hj q hq
        rcases List.mem_cons.mp hj with rfl | hj
        · rw [hq] at hrf
          exact absurd hrf (by simp)
        · exact hmin j hj q hq
      · intro hnf
        obtain ⟨hres, hnft⟩ := ihC hnf
        refine ⟨hres, ?_⟩
        intro i hi
        rcases List.mem_cons.mp hi with rfl | hi
        · exact hrf
        · exact hnft i hi

/-- C8: the best-focus search evaluates exactly the shifts i * step for
    i in [-4, 4] with step = max(0.5, |z0| * 1e-4); plane statistics over
    fewer than 3 valid hits are NaN, and such shifts are skipped by the
    fold; when some window shift yields a finite RMS the result is a
    window shift carrying the minimum finite RMS; when none does, the
    best shift stays 0, the best RMS stays NaN, and the reported spot RMS
    for the field angle is NaN. -/
theorem bestFocusForField_claim (msq : ℚ → ℚ) (sensor0 : PlaneSurface)
    (rmsAt : JsNum → RmsTriple) (hits : List (JsNum × JsNum)) :
    (hits.length < 3 → rmsAtPlaneHits msq hits = nanRms) ∧
    (focusStepSize msq sensor0 = max2 (fin (1/2))
      (mul (abs (Vec3.dotV sensor0.p0 (normalizeV msq sensor0.nHat)))
        (fin (1/10000)))) ∧
    ((bestFocusForField msq sensor0 rmsAt).bestShift_mm = fin 0 ∨
      ∃ i ∈ focusIndices, (bestFocusForField msq sensor0 rmsAt).bestShift_mm
        = mul (fin (i:ℚ)) (focusStepSize msq sensor0)) ∧
    ((∃ i ∈ focusIndices,
        (rmsAt (mul (fin (i:ℚ)) (focusStepSize msq sensor0))).rms.isFinite
          = true) →
      ∃ i ∈ focusIndices,
        (bestFocusForField msq sensor0 rmsAt).bestShift_mm
          = mul (fin (i:ℚ)) (focusStepSize msq sensor0) ∧
        (bestFocusForField msq sensor0 rmsAt).bestRms
          = rmsAt (mul (fin (i:ℚ)) (focusStepSize msq sensor0)) ∧
        (bestFocusForField msq sensor0 rmsAt).bestRms.rms.isFinite = true ∧
        ∀ j ∈ focusIndices, ∀ q : ℚ,
          (rmsAt (mul (fin (j:ℚ)) (focusStepSize msq sensor0))).rms = fin q →
          le (bestFocusForField msq sensor0 rmsAt).bestRms.rms (fin q)
            = true) ∧
    ((∀ i ∈ focusIndices,
        (rmsAt (mul (fin (i:ℚ)) (focusStepSize msq sensor0))).rms.isFinite
          = false) →
      (bestFocusForField msq sensor0 rmsAt).bestShift_mm = fin 0 ∧
      (bestFocusForField msq sensor0 rmsAt).bestRms = nanRms ∧
      (iqResultOfFocus (fin 0)
        (bestFocusForField msq sensor0 rmsAt)).spotRms_mm = nan) := by
  obtain ⟨chA, chB, chC⟩ :=
    focusFold_char rmsAt (focusStepSize msq sensor0) focusIndices
      (fin 0, nanRms)
  have hshift : (bestFocusForField msq sensor0 rmsAt).bestShift_mm =
      (focusIndices.foldl
        (focusSearchStep rmsAt (focusStepSize msq sensor0))
        (fin 0, nanRms)).1 := rfl
  have hbest : (bestFocusForField msq sensor0 rmsAt).bestRms =
      (focusIndices.foldl
        (focusSearchStep rmsAt (focusStepSize msq sensor0))
        (fin 0, nanRms)).2 := rfl
  refine ⟨?_, rfl, ?_, ?_, ?_⟩
  · intro h
    rw [rmsAtPlaneHits, if_pos h]
  · rcases chA with h | ⟨i, hi, hres, -⟩
    · exact Or.inl (by rw [hshift, h])
    · exact Or.inr ⟨i, hi, by rw [hshift, hres]⟩
  · rintro ⟨i0, hi0, hfin0⟩
    have hRfin : (focusIndices.foldl
        (focusSearchStep rmsAt (focusStepSize msq sensor0))
        (fin 0, nanRms)).2.rms.isFinite = true := by
      by_contra hcon
      obtain ⟨-, hall⟩ := chC (Bool.eq_false_iff.mpr hcon)
      exact absurd (hall i0 hi0) (by simp [hfin0])
    rcases chA with h | ⟨i, hi, hres, -⟩
    · exfalso
      rw [h] at hRfin
      exact absurd hRfin (by simp [nanRms])
    · obtain ⟨hmin, -⟩ := chB hRfin
      refine ⟨i, hi, by rw [hshift, hres], by rw [hbest, hres], ?_, ?_⟩
      · rw [hbest]
        exact hRfin
      · intro j hj q hq
        rw [hbest]
        exact hmin j hj q hq
  · intro hall
    rcases chA with h | ⟨i, hi, -, hfin⟩
    · refine ⟨by rw [hshift, h], by rw [hbest, h], ?_⟩
      have hiq : (iqResultOfFocus (fin 0)
          (bestFocusForField msq sensor0 rmsAt)).spotRms_mm =
          (bestFocusForField msq sensor0 rmsAt).bestRms.rms := rfl
      rw [hiq, hbest, h]
      rfl
    · exact absurd (hall i hi) (by simp [hfin])

/-- Witness for C8 at the concrete sensor plane and RMS sampler that is
    finite only at the nominal plane. -/
theorem bestFocusForField_claim_witness :
    (([] : List (JsNum × JsNum)).length < 3) ∧
    rmsAtPlaneHits (fun q => q) [] = nanRms ∧
    (∃ i ∈ focusIndices, (rmsAtX (mul (fin (i:ℚ))
      (focusStepSize (fun q => q) planeW))).rms.isFinite = true) ∧
    (∃ i ∈ focusIndices,
      (bestFocusForField (fun q => q) planeW rmsAtX).bestShift_mm
        = mul (fin (i:ℚ)) (focusStepSize (fun q => q) planeW) ∧
      (bestFocusForField (fun q => q) planeW rmsAtX).bestRms
        = rmsAtX (mul (fin (i:ℚ)) (focusStepSize (fun q => q) planeW)) ∧
      (bestFocusForField (fun q => q) planeW rmsAtX).bestRms.rms.isFinite
        = true ∧
      ∀ j ∈ focusIndices, ∀ q : ℚ,
        (rmsAtX (mul (fin (j:ℚ))
          (focusStepSize (fun q => q) planeW))).rms = fin q →
        le (bestFocusForField (fun q => q) planeW rmsAtX).bestRms.rms
          (fin q) = true) := by
  obtain ⟨h1, -, -, h4, -⟩ :=
    bestFocusForField_claim (fun q => q) planeW rmsAtX []
  have hex : ∃ i ∈ focusIndices, (rmsAtX (mul (fin (i:ℚ))
      (focusStepSize (fun q => q) planeW))).rms.isFinite = true := by
    refine ⟨0, by norm_num [focusIndices], ?_⟩
    norm_num [rmsAtX, focusStepSize, normalizeV, vnorm, jsSqrt, Vec3.dotV,
      planeW, planeX, max2, JsNum.lt, JsNum.le, JsNum.abs, JsNum.add,
      JsNum.sub, JsNum.mul, JsNum.div, JsNum.isFinite, nanRms]
  exact ⟨by norm_num, h1 (by norm_num), hex, h4 hex⟩
